import Mathlib

/-!
Verification development for the itihas token-transfer indexer.

Shallow embedding of the data model and the operations of the repository:
the in-memory types of `indexer/src/types.rs`, the composed gRPC-push /
RPC-poll block streamer of `indexer/src/grpc.rs`, the polling streamer of
`indexer/src/poller.rs`, the block parsers of `indexer/src/parser.rs`, the
storage layer of `indexer/src/db.rs` together with the generated entities of
`dao/src/generated`, and the query-side validation and pagination of
`api/src/api.rs`, `api/src/db.rs` and `api/src/spec/api_impl.rs`.

Machine integers are modelled as `Nat`/`Int`; where Rust wrapping or casting
semantics matter the reduction modulo `2^32` or `2^64` is written explicitly.
Calls into external crates (spl-token decoding, PDA derivation, base58 and
UTF-8 codecs) are modelled as parameters of an environment structure, since
they are external collaborators of the repository.
-/

/-! ## Core data model (indexer/src/types.rs) -/

/-- `indexer/src/types.rs` `Instruction`.  Pubkeys and byte strings are byte
lists; `amount` is the unsigned 64-bit transfer amount. -/
structure Instruction where
  program_id : List Nat
  data : List Nat
  accounts : List (List Nat)
  source_address : List Nat
  destination_address : List Nat
  mint : Option (List Nat)
  source_ata : Option (List Nat)
  destination_ata : Option (List Nat)
  amount : Nat
deriving DecidableEq, Repr

/-- `indexer/src/types.rs` `InstructionGroup`.  `types.rs` itself omits a
`token_type` field while `indexer/src/db.rs` reads `instruction_group.token_type`
and the inline parser in `indexer/src/grpc.rs` populates it; the field is kept
here so the storage layer can be embedded as written. -/
structure InstructionGroup where
  outer_instruction : Instruction
  inner_instructions : List Instruction
  token_type : String
deriving DecidableEq, Repr

/-- `indexer/src/types.rs` `Transaction`. -/
structure Transaction where
  instruction_groups : List InstructionGroup
  signature : List Nat
  block_time : Int
  error : Option String
  slot : Nat
deriving DecidableEq, Repr

/-- `indexer/src/types.rs` `BlockMetadata`. -/
structure BlockMetadata where
  slot : Nat
  parent_slot : Nat
  block_time : Int
  blockhash : String
  parent_blockhash : String
  block_height : Nat
deriving DecidableEq, Repr

/-- `indexer/src/types.rs` `BlockInfo`. -/
structure BlockInfo where
  metadata : BlockMetadata
  transactions : List Transaction
deriving DecidableEq, Repr

/-- `indexer/src/types.rs` `BlockStreamConfig` (the `rpc_client` handle is an
external collaborator and is not part of the value model). -/
structure BlockStreamConfig where
  grpc_url : Option String
  grpc_x_token : String
  max_concurrent_block_fetches : Nat
  last_indexed_slot : Nat
  index_recent : Bool

/-- `indexer/src/types.rs` `StateUpdate`: a `HashSet<Transaction>`, modelled
as a `Finset`. -/
structure StateUpdate where
  transactions : Finset Transaction
deriving DecidableEq

instance : Inhabited StateUpdate := ⟨⟨∅⟩⟩

/-- `StateUpdate::default()`. -/
def StateUpdate.default : StateUpdate := ⟨∅⟩

/-- `indexer/src/types.rs` `StateUpdate::merge_updates`: start from the
default update and `extend` with each update's transaction set in order. -/
def StateUpdate.merge_updates (updates : List StateUpdate) : StateUpdate :=
  updates.foldl (fun merged update =>
    { transactions := merged.transactions ∪ update.transactions }) StateUpdate.default

/-- Binary merge, `merge_updates` applied to a two-element vector. -/
def StateUpdate.merge2 (s₁ s₂ : StateUpdate) : StateUpdate :=
  StateUpdate.merge_updates [s₁, s₂]

/-! ## The composed push-primary / poll-fallback streamer
(`indexer/src/grpc.rs`, `GrpcStreamer::get_grpc_stream_with_rpc_fallback`).

The `stream!` loop is driven by events from the gRPC push stream and, while
the fallback is active, from the spawned RPC poll stream; `select` makes the
interleaving of the two sources arbitrary, so the embedding quantifies over
an arbitrary event trace.  `pollEnd` is the poll stream returning `None`. -/

inductive StreamEvent where
  | push (b : BlockInfo)
  | poll (b : BlockInfo)
  | pollEnd
deriving DecidableEq, Repr

/-- The loop state of `get_grpc_stream_with_rpc_fallback`: the mutable
`last_indexed_slot` cursor and whether `rpc_poll_stream` is `Some`. -/
structure FallbackState where
  last_indexed_slot : Nat
  poll_active : Bool
deriving DecidableEq, Repr

/-- One iteration of the `loop` in `get_grpc_stream_with_rpc_fallback`:
given the current state and the event the `select` resolved to, the next
state and the blocks yielded by that iteration.

* poll active, push block: yielded (and the fallback dropped) only on
  `parent_slot == last_indexed_slot`;
* poll active, poll block: yielded only on `parent_slot == last_indexed_slot`;
* poll active, poll stream drained: back to push-only;
* push only, push block: the `slot == 0` sentinel is skipped; a continuous
  block is yielded and advances the cursor; a gap spawns the poll fallback
  (the gap block itself is dropped);
* push only: the poll stream does not exist, so no poll event can fire
  (modelled as a no-op, which only strengthens the theorems below). -/
def grpcFallbackStep (s : FallbackState) (e : StreamEvent) :
    FallbackState × List BlockInfo :=
  if s.poll_active then
    match e with
    | .push b =>
        if b.metadata.parent_slot = s.last_indexed_slot then
          ({ last_indexed_slot := b.metadata.slot, poll_active := false }, [b])
        else (s, [])
    | .poll b =>
        if b.metadata.parent_slot = s.last_indexed_slot then
          ({ s with last_indexed_slot := b.metadata.slot }, [b])
        else (s, [])
    | .pollEnd => ({ s with poll_active := false }, [])
  else
    match e with
    | .push b =>
        if b.metadata.slot = 0 then (s, [])
        else if b.metadata.parent_slot = s.last_indexed_slot then
          ({ s with last_indexed_slot := b.metadata.slot }, [b])
        else ({ s with poll_active := true }, [])
    | .poll _ => (s, [])
    | .pollEnd => (s, [])

/-- The blocks emitted by the composed streamer over an event trace. -/
def grpcFallbackRun (s : FallbackState) : List StreamEvent → List BlockInfo
  | [] => []
  | e :: es =>
      let step := grpcFallbackStep s e
      step.2 ++ grpcFallbackRun step.1 es

/-- The composed streamer as constructed in
`get_grpc_stream_with_rpc_fallback`: the cursor starts at
`config.last_indexed_slot` and `rpc_poll_stream` starts as `None`.  The
function reads `config.rpc_client`, `config.last_indexed_slot`,
`config.max_concurrent_block_fetches` and `config.grpc_url`; it never reads
`config.index_recent`. -/
def getGrpcStreamWithRpcFallback (config : BlockStreamConfig)
    (events : List StreamEvent) : List BlockInfo :=
  grpcFallbackRun ⟨config.last_indexed_slot, false⟩ events

/-- The parent-linked-chain predicate: each block's `parent_slot` equals the
slot of the previously emitted block, with `prev` as the initial
predecessor. -/
def parentChain (prev : Nat) : List BlockInfo → Bool
  | [] => true
  | b :: rest => b.metadata.parent_slot = prev && parentChain b.metadata.slot rest

/-! ## The polling streamer
(`indexer/src/poller.rs`, `PollerStreamer::get_poller_block_stream` and
`PollerStreamer::get_block`).

`get_block` retries transient RPC errors forever and terminates with either a
parsed `BlockInfo` or an `IndexerError` (the designated skip codes `-32007`
and `-32009`, and parse failures).  The per-slot terminal outcome is modelled
by an oracle `fetch : Nat → Option BlockInfo` (`none` = the error case, which
`flatten` in the stream body discards).  `FuturesUnordered` returns each
batch's results in an arbitrary completion order, modelled by a `reorder`
function that permutes each batch; the stream then sorts by
`block.metadata.slot` (`sort_by_key`, a stable comparison sort, modelled as
insertion sort) and yields in order. -/

structure PollerFetchEnv where
  fetch : Nat → Option BlockInfo
  reorder : Nat → List BlockInfo → List BlockInfo

/-- The comparison used by `sort_by_key(|block| block.metadata.slot)`. -/
def slotLE (a b : BlockInfo) : Prop := a.metadata.slot ≤ b.metadata.slot

instance : DecidableRel slotLE := fun a b => Nat.decLe a.metadata.slot b.metadata.slot

instance : IsTotal BlockInfo slotLE := ⟨fun a b => Nat.le_total a.metadata.slot b.metadata.slot⟩

instance : IsTrans BlockInfo slotLE := ⟨fun _ _ _ h h2 => Nat.le_trans h h2⟩

/-- The strict slot order (used to state strict monotonicity of emission). -/
def slotLT (a b : BlockInfo) : Prop := a.metadata.slot < b.metadata.slot

instance : IsAntisymm BlockInfo slotLT :=
  ⟨fun _ _ h h2 => absurd (Nat.lt_trans h h2) (Nat.lt_irrefl _)⟩

/-- Stable sort by `metadata.slot` (model of Rust's stable `sort_by_key`). -/
def sortBySlot (l : List BlockInfo) : List BlockInfo := List.insertionSort slotLE l

/-- The starting cursor of `get_poller_block_stream`:
`current_slot_to_fetch` is `0` when `last_indexed_slot == 0` and
`last_indexed_slot + 1` otherwise, then raised to `latest_slot` when the
`latest_slot` argument is nonzero. -/
def pollerStartCursor (last_indexed_slot latest_slot : Nat) : Nat :=
  let c := match last_indexed_slot with
    | 0 => 0
    | l => l + 1
  if latest_slot ≠ 0 then max c latest_slot else c

/-- One poll batch: the window of consecutive slots starting at `cursor`
(the inner `while` fills at most `max_concurrent_block_fetches` futures, one
per slot, advancing the cursor), fetched, errors flattened away, results
returned in completion order `reorder i`, then sorted by slot. -/
def pollerBatch (env : PollerFetchEnv) (i : Nat) (cursor size : Nat) :
    List BlockInfo :=
  sortBySlot (env.reorder i (((List.range size).map (cursor + ·)).filterMap env.fetch))

/-- The emitted sequence of the poll stream, batch by batch.  `sizes` is the
list of successive window sizes (each batch covers the next `k` slots, where
`k` is determined by `max_concurrent_block_fetches` and the refreshed head
slot); the cursor advances by the window size after every batch exactly as
`current_slot_to_fetch` does. -/
def pollerRun (env : PollerFetchEnv) (cursor : Nat) (i : Nat) :
    List Nat → List BlockInfo
  | [] => []
  | size :: sizes =>
      pollerBatch env i cursor size ++ pollerRun env (cursor + size) (i + 1) sizes

/-- `get_poller_block_stream` restricted to the first `sizes` batch windows:
starts at `pollerStartCursor config.last_indexed_slot latest_slot`. -/
def getPollerBlockStream (env : PollerFetchEnv) (last_indexed_slot latest_slot : Nat)
    (sizes : List Nat) : List BlockInfo :=
  pollerRun env (pollerStartCursor last_indexed_slot latest_slot) 0 sizes

/-! ## Block parsers (`indexer/src/parser.rs`)

Inputs are modelled structurally after the yellowstone gRPC proto types
(push variant) and the solana UI/transaction-status types (poll variant),
restricted to the fields the parsers read.  Calls into external crates are
collected in `SplEnv`.  The result type distinguishes a per-block
`IndexerError::ParserError` from a Rust panic (an `unwrap()` on `None` or an
out-of-bounds `Vec` index), which aborts the whole parsing call rather than
failing the block. -/

inductive ParseOutcome (α : Type) where
  | ok (a : α)
  | err (e : String)
  | panic (msg : String)
deriving DecidableEq, Repr

/-- External-crate collaborators used by the parsers.

* `unpackTransfer data = some amount` iff
  `spl_token::instruction::TokenInstruction::unpack(data)` succeeds with a
  `Transfer { amount }` (any other decode outcome is `none`, since every call
  site pattern-matches `if let Ok(... Transfer ...)`);
* `findAta owner token_program mint` is the PDA derivation
  `Pubkey::find_program_address([owner, token_program, mint], ATA_PROGRAM).0`;
* `pubkeyFromStr` is `Pubkey::from_str` (base58 decode to 32 bytes);
* `bs58Decode` is `bs58::decode(..).into_vec()`;
* `utf8Decode` is `std::str::from_utf8`;
* the two program ids are the decoded byte forms of the spl-token and
  spl-token-2022 program id constants. -/
structure SplEnv where
  unpackTransfer : List Nat → Option Nat
  findAta : List Nat → List Nat → List Nat → List Nat
  pubkeyFromStr : String → Option (List Nat)
  bs58Decode : String → Option (List Nat)
  utf8Decode : List Nat → Option String
  token_program_id : List Nat
  token_extensions_program_id : List Nat

/-- `Pubkey::try_from(Vec<u8>)`: succeeds exactly on 32-byte inputs. -/
def pubkeyTryFrom (bytes : List Nat) : Option (List Nat) :=
  if bytes.length = 32 then some bytes else none

/-- `Signature::try_from(Vec<u8>)`: succeeds exactly on 64-byte inputs. -/
def signatureTryFrom (bytes : List Nat) : Option (List Nat) :=
  if bytes.length = 64 then some bytes else none

/-- `parser.rs` `find_associated_token_address`: errors on a `None`
program id, otherwise derives the PDA. -/
def find_associated_token_address (env : SplEnv) (owner mint : List Nat)
    (program_id : Option (List Nat)) : Except String (List Nat) :=
  match program_id with
  | none => .error "invalid program id"
  | some token_program_id => .ok (env.findAta owner token_program_id mint)

/-- `transaction_error_to_string`: UTF-8 decode with a fallback string. -/
def transaction_error_to_string (env : SplEnv) (err : List Nat) : String :=
  match env.utf8Decode err with
  | some s => s
  | none => "Invalid UTF-8 in TransactionError"

/-- `solana_sdk` `CompiledInstruction` and the gRPC proto instruction (both
variants carry a program id index, account indices, and opaque data). -/
structure CompiledInstruction where
  program_id_index : Nat
  accounts : List Nat
  data : List Nat
deriving DecidableEq, Repr

/-! ### gRPC (push) input types (yellowstone proto, fields read by the parser) -/

structure GrpcTimestamp where
  timestamp : Int
deriving DecidableEq, Repr

structure GrpcBlockHeight where
  block_height : Nat
deriving DecidableEq, Repr

structure GrpcTokenBalance where
  mint : String
deriving DecidableEq, Repr

structure GrpcInnerInstruction where
  program_id_index : Nat
  accounts : List Nat
  data : List Nat
deriving DecidableEq, Repr

structure GrpcInnerInstructions where
  index : Nat
  instructions : List GrpcInnerInstruction
deriving DecidableEq, Repr

structure GrpcTransactionError where
  err : List Nat
deriving DecidableEq, Repr

structure GrpcTransactionStatusMeta where
  err : Option GrpcTransactionError
  loaded_writable_addresses : List (List Nat)
  loaded_readonly_addresses : List (List Nat)
  post_token_balances : List GrpcTokenBalance
  inner_instructions : List GrpcInnerInstructions
deriving DecidableEq, Repr

structure GrpcMessage where
  account_keys : List (List Nat)
  instructions : List CompiledInstruction
deriving DecidableEq, Repr

structure GrpcTransaction where
  message : Option GrpcMessage
deriving DecidableEq, Repr

structure SubscribeUpdateTransactionInfo where
  signature : List Nat
  meta : Option GrpcTransactionStatusMeta
  transaction : Option GrpcTransaction
deriving DecidableEq, Repr

structure SubscribeUpdateBlock where
  slot : Nat
  parent_slot : Nat
  block_time : Option GrpcTimestamp
  blockhash : String
  parent_blockhash : String
  block_height : Option GrpcBlockHeight
  transactions : List SubscribeUpdateTransactionInfo
deriving DecidableEq, Repr

/-- gRPC outer-instruction account resolution: per index, a bounds check
(fatal `ParserError` on failure) then `Pubkey::try_from`; `collect` stops at
the first error. -/
def grpcResolveAccounts (accounts : List (List Nat)) :
    List Nat → Except String (List (List Nat))
  | [] => .ok []
  | i :: rest =>
      if h : i < accounts.length then
        match pubkeyTryFrom (accounts.get ⟨i, h⟩) with
        | none => .error "error getting accounts from grpc"
        | some pk =>
            match grpcResolveAccounts accounts rest with
            | .error e => .error e
            | .ok pks => .ok (pk :: pks)
      else .error "Account index out of bounds"

/-- gRPC inner-instruction account resolution: `filter_map` that logs and
skips an out-of-bounds index and drops a failed `Pubkey::try_from`. -/
def grpcResolveInnerAccounts (accounts : List (List Nat)) (idxs : List Nat) :
    List (List Nat) :=
  idxs.filterMap (fun i =>
    if h : i < accounts.length then pubkeyTryFrom (accounts.get ⟨i, h⟩) else none)

/-- One outer instruction of `GrpcParser::parse_transaction`
(`parser.rs` lines 401-515): bounds-checked program id, resolved accounts,
and — for a token-program `Transfer` with at least two accounts — the
instruction group with mint, both ATAs, and every inner instruction of the
transaction recorded under the outer group (the gRPC path does not decode
inner data; it carries the outer amount and addresses).  `token_type` is the
`"spl_token"` tag the inline `grpc.rs` copy of this parser attaches. -/
def grpcParseInstruction (env : SplEnv) (accounts : List (List Nat))
    (meta : GrpcTransactionStatusMeta) (ix : CompiledInstruction) :
    Except String (Option InstructionGroup) :=
  if h : ix.program_id_index < accounts.length then
    match pubkeyTryFrom (accounts.get ⟨ix.program_id_index, h⟩) with
    | none => .error "error parsing program id"
    | some program_id =>
        match grpcResolveAccounts accounts ix.accounts with
        | .error e => .error e
        | .ok instruction_accounts =>
            if h2 : (program_id = env.token_program_id ∨
                     program_id = env.token_extensions_program_id) ∧
                    2 ≤ instruction_accounts.length then
              let src_address := instruction_accounts.get ⟨0, by omega⟩
              let dest_address := instruction_accounts.get ⟨1, by omega⟩
              match env.unpackTransfer ix.data with
              | some amount =>
                  match meta.post_token_balances with
                  | [] => .error "Token balance not found"
                  | balance :: _ =>
                      match env.pubkeyFromStr balance.mint with
                      | none => .error "error parsing pubkey"
                      | some mint =>
                          match find_associated_token_address env src_address mint
                              (some program_id) with
                          | .error e => .error e
                          | .ok src_ata =>
                              match find_associated_token_address env dest_address mint
                                  (some program_id) with
                              | .error e => .error e
                              | .ok dest_ata =>
                                  let inner_instructions :=
                                    meta.inner_instructions.flatMap (fun g =>
                                      g.instructions.map (fun ins =>
                                        { program_id := program_id
                                          data := ins.data
                                          accounts :=
                                            grpcResolveInnerAccounts accounts ins.accounts
                                          source_address := src_address
                                          destination_address := dest_address
                                          mint := none
                                          source_ata := none
                                          destination_ata := none
                                          amount := amount }))
                                  .ok (some
                                    { outer_instruction :=
                                        { program_id := program_id
                                          data := ix.data
                                          accounts := instruction_accounts
                                          source_address := src_address
                                          destination_address := dest_address
                                          mint := some mint
                                          source_ata := some src_ata
                                          destination_ata := some dest_ata
                                          amount := amount }
                                      inner_instructions := inner_instructions
                                      token_type := "spl_token" })
              | none => .ok none
            else .ok none
  else .error "Program ID index out of bounds"

/-- The instruction loop of `GrpcParser::parse_transaction`, accumulating
instruction groups with the first error short-circuiting. -/
def grpcParseInstructionList (env : SplEnv) (accounts : List (List Nat))
    (meta : GrpcTransactionStatusMeta) :
    List CompiledInstruction → Except String (List InstructionGroup)
  | [] => .ok []
  | ix :: rest =>
      match grpcParseInstruction env accounts meta ix with
      | .error e => .error e
      | .ok none => grpcParseInstructionList env accounts meta rest
      | .ok (some group) =>
          match grpcParseInstructionList env accounts meta rest with
          | .error e => .error e
          | .ok groups => .ok (group :: groups)

/-- `GrpcParser::parse_transaction` (`parser.rs` lines 372-527). -/
def GrpcParser.parse_transaction (env : SplEnv)
    (transaction : SubscribeUpdateTransactionInfo) (slot : Nat) (block_time : Int) :
    Except String (Option Transaction) :=
  match transaction.meta with
  | none => .error "Missing metadata"
  | some meta =>
      let error := meta.err.map (fun e => transaction_error_to_string env e.err)
      match signatureTryFrom transaction.signature with
      | none => .error "error parsing signature"
      | some signature =>
          match transaction.transaction with
          | none => .error "Missing transaction"
          | some txn =>
              match txn.message with
              | none => .error "Missing message"
              | some message =>
                  let accounts := message.account_keys ++
                    meta.loaded_writable_addresses ++ meta.loaded_readonly_addresses
                  match grpcParseInstructionList env accounts meta message.instructions with
                  | .error e => .error e
                  | .ok instruction_groups =>
                      if instruction_groups.isEmpty then .ok none
                      else .ok (some
                        { instruction_groups := instruction_groups
                          signature := signature
                          block_time := block_time
                          error := error
                          slot := slot })

/-- The transaction loop of `GrpcParser::parse_block`: `Ok(None)` results
are filtered out, the first error short-circuits the whole block. -/
def grpcParseTransactionList (env : SplEnv) (slot : Nat) (block_time : Int) :
    List SubscribeUpdateTransactionInfo → Except String (List Transaction)
  | [] => .ok []
  | t :: rest =>
      match GrpcParser.parse_transaction env t slot block_time with
      | .error e => .error e
      | .ok none => grpcParseTransactionList env slot block_time rest
      | .ok (some tx) =>
          match grpcParseTransactionList env slot block_time rest with
          | .error e => .error e
          | .ok txs => .ok (tx :: txs)

/-- `GrpcParser::parse_block` (`parser.rs` lines 529-557).  The metadata is
built with `block.block_time.unwrap().timestamp` and
`block.block_height.unwrap().block_height`: a missing proto field is a Rust
panic, not a `ParserError`. -/
def GrpcParser.parse_block (env : SplEnv) (block : SubscribeUpdateBlock) :
    ParseOutcome BlockInfo :=
  match block.block_time with
  | none => .panic "called Option::unwrap() on a None value"
  | some bt =>
      match block.block_height with
      | none => .panic "called Option::unwrap() on a None value"
      | some bh =>
          let metadata : BlockMetadata :=
            { slot := block.slot
              parent_slot := block.parent_slot
              block_time := bt.timestamp
              blockhash := block.blockhash
              parent_blockhash := block.parent_blockhash
              block_height := bh.block_height }
          match grpcParseTransactionList env metadata.slot metadata.block_time
              block.transactions with
          | .error e => .err e
          | .ok transactions => .ok { metadata := metadata, transactions := transactions }

/-! ### Poll (RPC) input types (solana-transaction-status, fields read by
`PollerParser::parse_instruction_groups`) -/

inductive OptionSerializer (α : Type) where
  | some (a : α)
  | none
  | skip
deriving DecidableEq, Repr

structure UiCompiledInstruction where
  program_id_index : Nat
  accounts : List Nat
  data : String
deriving DecidableEq, Repr

inductive UiInstruction where
  | compiled (c : UiCompiledInstruction)
  | parsed
deriving DecidableEq, Repr

structure UiInnerInstructions where
  index : Nat
  instructions : List UiInstruction
deriving DecidableEq, Repr

structure UiTransactionTokenBalance where
  mint : String
deriving DecidableEq, Repr

structure UiLoadedAddresses where
  writable : List String
  readonly : List String
deriving DecidableEq, Repr

structure UiTransactionStatusMeta where
  err : Option String
  loaded_addresses : OptionSerializer UiLoadedAddresses
  post_token_balances : OptionSerializer (List UiTransactionTokenBalance)
  inner_instructions : OptionSerializer (List UiInnerInstructions)
deriving DecidableEq, Repr

structure VersionedMessage where
  static_account_keys : List (List Nat)
  has_address_table_lookups : Bool
  instructions : List CompiledInstruction
deriving DecidableEq, Repr

structure VersionedTransaction where
  signatures : List (List Nat)
  message : VersionedMessage
deriving DecidableEq, Repr

/-- Poll-path account resolution (outer and inner): per index, a bounds
check whose failure is the fatal `ParserError` `msg`; the account table
already holds pubkeys, so no conversion happens. -/
def pollerResolveAccounts (accounts : List (List Nat)) (msg : String) :
    List Nat → Except String (List (List Nat))
  | [] => .ok []
  | i :: rest =>
      if h : i < accounts.length then
        match pollerResolveAccounts accounts msg rest with
        | .error e => .error e
        | .ok pks => .ok (accounts.get ⟨i, h⟩ :: pks)
      else .error msg

/-- `Pubkey::from_str` applied to each loaded address string, first error
short-circuiting. -/
def parsePubkeyList (env : SplEnv) : List String → Except String (List (List Nat))
  | [] => .ok []
  | s :: rest =>
      match env.pubkeyFromStr s with
      | none => .error "error parsing pubkey"
      | some pk =>
          match parsePubkeyList env rest with
          | .error e => .error e
          | .ok pks => .ok (pk :: pks)

/-- The account-table construction of `parse_instruction_groups`
(`parser.rs` lines 208-225): static keys, then — when the message has
address-table lookups and the meta carries loaded addresses — the writable
then readonly loaded addresses, each parsed from its string form. -/
def pollerBuildAccounts (env : SplEnv) (vt : VersionedTransaction)
    (meta : UiTransactionStatusMeta) : Except String (List (List Nat)) :=
  let statics := vt.message.static_account_keys
  if vt.message.has_address_table_lookups then
    match meta.loaded_addresses with
    | .some loaded =>
        match parsePubkeyList env (loaded.writable ++ loaded.readonly) with
        | .error e => .error e
        | .ok extra => .ok (statics ++ extra)
    | _ => .ok statics
  else .ok statics

/-- One inner instruction of the poll path (`parser.rs` lines 281-334).  A
parsed (non-compiled) instruction is a fatal `ParserError`; a compiled one is
bounds-checked and bs58-decoded, and when it is a token-program `Transfer`
the source and destination are read as `inner_accounts[0]` and
`inner_accounts[1]` with **no length guard**: fewer than two resolved
accounts is a Rust index-out-of-bounds panic. -/
def pollerParseInnerInstruction (env : SplEnv) (accounts : List (List Nat))
    (ui : UiInstruction) : ParseOutcome (Option Instruction) :=
  match ui with
  | .parsed => .err "Parsed instructions are not implemented yet"
  | .compiled c =>
      if h : c.program_id_index < accounts.length then
        let inner_program_id := accounts.get ⟨c.program_id_index, h⟩
        match env.bs58Decode c.data with
        | none => .err "bs58 decode error"
        | some inner_data =>
            match pollerResolveAccounts accounts "Inner account index out of bounds"
                c.accounts with
            | .error e => .err e
            | .ok inner_accounts =>
                if inner_program_id = env.token_program_id ∨
                   inner_program_id = env.token_extensions_program_id then
                  match env.unpackTransfer inner_data with
                  | some amount =>
                      match inner_accounts with
                      | a0 :: a1 :: _ =>
                          .ok (some
                            { program_id := inner_program_id
                              data := inner_data
                              accounts := inner_accounts
                              source_address := a0
                              destination_address := a1
                              mint := none
                              source_ata := none
                              destination_ata := none
                              amount := amount })
                      | _ => .panic "index out of bounds: inner transfer accounts"
                  | none => .ok none
                else .ok none
      else .err "Inner program ID index out of bounds"

/-- The inner-instruction loop within one `UiInnerInstructions` group. -/
def pollerParseInnerList (env : SplEnv) (accounts : List (List Nat)) :
    List UiInstruction → ParseOutcome (List Instruction)
  | [] => .ok []
  | ui :: rest =>
      match pollerParseInnerInstruction env accounts ui with
      | .err e => .err e
      | .panic m => .panic m
      | .ok none => pollerParseInnerList env accounts rest
      | .ok (some ins) =>
          match pollerParseInnerList env accounts rest with
          | .err e => .err e
          | .panic m => .panic m
          | .ok tail => .ok (ins :: tail)

/-- The loop over the meta's `inner_instructions` groups. -/
def pollerParseInnerGroups (env : SplEnv) (accounts : List (List Nat)) :
    List UiInnerInstructions → ParseOutcome (List Instruction)
  | [] => .ok []
  | g :: rest =>
      match pollerParseInnerList env accounts g.instructions with
      | .err e => .err e
      | .panic m => .panic m
      | .ok head =>
          match pollerParseInnerGroups env accounts rest with
          | .err e => .err e
          | .panic m => .panic m
          | .ok tail => .ok (head ++ tail)

/-- One outer instruction of `parse_instruction_groups` (`parser.rs` lines
233-356).  The outer instruction records the **whole account table** in its
`accounts` field (the source does `accounts: accounts.clone()`), and both
ATAs are derived with `token_program_id` regardless of which token program
matched.  `token_type` is the tag attached by the inline `grpc.rs` parser
(`types.rs` omits the field; see `InstructionGroup`). -/
def pollerParseOuterInstruction (env : SplEnv) (accounts : List (List Nat))
    (meta : UiTransactionStatusMeta) (ix : CompiledInstruction) :
    ParseOutcome (Option InstructionGroup) :=
  if h : ix.program_id_index < accounts.length then
    let program_id := accounts.get ⟨ix.program_id_index, h⟩
    match pollerResolveAccounts accounts "Account index out of bounds" ix.accounts with
    | .error e => .err e
    | .ok instruction_accounts =>
        if h2 : (program_id = env.token_program_id ∨
                 program_id = env.token_extensions_program_id) ∧
                2 ≤ instruction_accounts.length then
          match env.unpackTransfer ix.data with
          | some amount =>
              let source_address := instruction_accounts.get ⟨0, by omega⟩
              let destination_address := instruction_accounts.get ⟨1, by omega⟩
              match meta.post_token_balances with
              | .none => .err "Post token balances are missing"
              | .skip => .err "Post token balances were skipped"
              | .some balances =>
                  match balances with
                  | [] => .err "Token balance not found"
                  | balance :: _ =>
                      match env.pubkeyFromStr balance.mint with
                      | none => .err "error parsing pubkey"
                      | some mint =>
                          match find_associated_token_address env source_address mint
                              (some env.token_program_id) with
                          | .error e => .err e
                          | .ok source_ata =>
                              match find_associated_token_address env destination_address
                                  mint (some env.token_program_id) with
                              | .error e => .err e
                              | .ok destination_ata =>
                                  let innerResult :=
                                    match meta.inner_instructions with
                                    | .some groups =>
                                        pollerParseInnerGroups env accounts groups
                                    | _ => .ok []
                                  match innerResult with
                                  | .err e => .err e
                                  | .panic m => .panic m
                                  | .ok inner_instructions =>
                                      .ok (some
                                        { outer_instruction :=
                                            { program_id := program_id
                                              data := ix.data
                                              accounts := accounts
                                              source_address := source_address
                                              destination_address := destination_address
                                              mint := some mint
                                              source_ata := some source_ata
                                              destination_ata := some destination_ata
                                              amount := amount }
                                          inner_instructions := inner_instructions
                                          token_type := "spl_token" })
          | none => .ok none
        else .ok none
  else .err "Program ID index out of bounds"

/-- The outer-instruction loop of `parse_instruction_groups`. -/
def pollerParseOuterList (env : SplEnv) (accounts : List (List Nat))
    (meta : UiTransactionStatusMeta) :
    List CompiledInstruction → ParseOutcome (List InstructionGroup)
  | [] => .ok []
  | ix :: rest =>
      match pollerParseOuterInstruction env accounts meta ix with
      | .err e => .err e
      | .panic m => .panic m
      | .ok none => pollerParseOuterList env accounts meta rest
      | .ok (some group) =>
          match pollerParseOuterList env accounts meta rest with
          | .err e => .err e
          | .panic m => .panic m
          | .ok groups => .ok (group :: groups)

/-- `PollerParser::parse_instruction_groups` (`parser.rs` lines 204-359). -/
def PollerParser.parse_instruction_groups (env : SplEnv)
    (versioned_transaction : VersionedTransaction)
    (meta : UiTransactionStatusMeta) : ParseOutcome (List InstructionGroup) :=
  match pollerBuildAccounts env versioned_transaction meta with
  | .error e => .err e
  | .ok accounts =>
      pollerParseOuterList env accounts meta versioned_transaction.message.instructions

/-! ## Storage layer (`indexer/src/db.rs`, `dao/src/generated`)

Row models as built by `Dao::index_transactions_without_commit` and
`Dao::index_block_metadatas_without_commit`, the generated primary keys, and
the `INSERT … ON CONFLICT (…) DO NOTHING` semantics: rows are attempted in
order against the table and a row whose conflict-target tuple is already
present (including rows inserted earlier in the same statement) is
skipped. -/

/-- `dao/src/generated/token_transfers.rs` `Column`. -/
inductive TokenTransfersColumn where
  | signature
  | sourceAddress
  | programId
  | destinationAddress
  | sourceAta
  | destinationAta
  | mintAddress
  | slot
  | amount
  | error
  | blockTime
  | createdAt
deriving DecidableEq, Repr

/-- `dao/src/generated/blocks.rs` `Column`. -/
inductive BlocksColumn where
  | slot
  | parentSlot
  | blockHeight
  | blockTime
deriving DecidableEq, Repr

/-- `dao/src/generated/token_transfers.rs` `PrimaryKey`:
`(signature, source_address, destination_address, block_time)`. -/
def tokenTransfersPrimaryKey : List TokenTransfersColumn :=
  [.signature, .sourceAddress, .destinationAddress, .blockTime]

/-- The conflict target of `index_transactions_without_commit`
(`db.rs` lines 178-188): `OnConflict::columns([Signature, BlockTime,
SourceAddress, DestinationAddress])`. -/
def tokenTransfersConflictTarget : List TokenTransfersColumn :=
  [.signature, .blockTime, .sourceAddress, .destinationAddress]

/-- `dao/src/generated/blocks.rs` `PrimaryKey`: `(slot, block_time)`. -/
def blocksPrimaryKey : List BlocksColumn := [.slot, .blockTime]

/-- The conflict target of `index_block_metadatas_without_commit`
(`db.rs` lines 109-114): `OnConflict::columns([Slot, BlockTime])`. -/
def blocksConflictTarget : List BlocksColumn := [.slot, .blockTime]

/-- The reinterpreting cast `x as i64` applied to a `u64`: the value modulo
`2^64`, re-read as a signed two's-complement 64-bit integer. -/
def u64_as_i64 (n : Nat) : Int :=
  if n % 2 ^ 64 < 2 ^ 63 then ((n % 2 ^ 64 : Nat) : Int)
  else ((n % 2 ^ 64 : Nat) : Int) - 2 ^ 64

/-- `dao/src/generated/token_transfers.rs` `Model` /
`token_transfers::ActiveModel` as populated by
`index_transactions_without_commit`.  `block_time` is the tz-aware instant
(Unix seconds): the source converts `transaction.block_time` through
`NaiveDateTime::from_timestamp` and `DateTime::<Utc>::from_naive_utc_and_offset`,
which is the identity on the underlying instant. -/
structure TokenTransferModel where
  signature : List Nat
  slot : Int
  error : Option String
  block_time : Int
  created_at : Int
  source_address : List Nat
  destination_address : List Nat
  mint_address : Option (List Nat)
  source_ata : Option (List Nat)
  destination_ata : Option (List Nat)
  amount : Int
  token_type : String
deriving DecidableEq, Repr

/-- `dao/src/generated/blocks.rs` `Model` / `blocks::ActiveModel` as
populated by `index_block_metadatas_without_commit`. -/
structure BlockRowModel where
  slot : Int
  parent_slot : Int
  block_time : Int
  block_height : Int
deriving DecidableEq, Repr

/-- The conflict-target tuple of a transfer row (its primary key). -/
def transferRowKey (m : TokenTransferModel) :
    List Nat × List Nat × List Nat × Int :=
  (m.signature, m.source_address, m.destination_address, m.block_time)

/-- The conflict-target tuple of a blocks row (its primary key). -/
def blockRowKey (m : BlockRowModel) : Int × Int :=
  (m.slot, m.block_time)

/-- The row construction of `index_transactions_without_commit`
(`db.rs` lines 138-175): one row per `(transaction, instruction_group)`
pair, flattening the outer instruction into columns; `created_at` is the
wall-clock `now` at insert time. -/
def transferModels (now : Int) (transactions : List Transaction) :
    List TokenTransferModel :=
  transactions.flatMap (fun transaction =>
    transaction.instruction_groups.map (fun instruction_group =>
      { signature := transaction.signature
        slot := u64_as_i64 transaction.slot
        error := transaction.error
        block_time := transaction.block_time
        created_at := now
        source_address := instruction_group.outer_instruction.source_address
        destination_address := instruction_group.outer_instruction.destination_address
        mint_address := instruction_group.outer_instruction.mint
        source_ata := instruction_group.outer_instruction.source_ata
        destination_ata := instruction_group.outer_instruction.destination_ata
        amount := u64_as_i64 instruction_group.outer_instruction.amount
        token_type := instruction_group.token_type }))

/-- The row construction of `index_block_metadatas_without_commit`
(`db.rs` lines 97-107). -/
def blockModels (blocks : List BlockMetadata) : List BlockRowModel :=
  blocks.map (fun block =>
    { slot := u64_as_i64 block.slot
      parent_slot := u64_as_i64 block.parent_slot
      block_time := block.block_time
      block_height := u64_as_i64 block.block_height })

/-- `INSERT … ON CONFLICT (key) DO NOTHING`: rows are attempted in order; a
row whose conflict-target tuple is already present (in the table or inserted
earlier in the same statement) is skipped. -/
def insertOnConflict {α κ : Type} [DecidableEq κ] (key : α → κ)
    (table : List α) (rows : List α) : List α :=
  rows.foldl (fun t r =>
    if t.any (fun x => key x = key r) then t else t ++ [r]) table

/-- The conflict-do-nothing insert for the `token_transfers` table. -/
def insertTransfersOnConflictDoNothing (table : List TokenTransferModel)
    (rows : List TokenTransferModel) : List TokenTransferModel :=
  insertOnConflict transferRowKey table rows

/-- The conflict-do-nothing insert for the `blocks` table. -/
def insertBlocksOnConflictDoNothing (table : List BlockRowModel)
    (rows : List BlockRowModel) : List BlockRowModel :=
  insertOnConflict blockRowKey table rows

/-- `MAX_SQL_INSERTS` (`indexer/src/types.rs`). -/
def MAX_SQL_INSERTS : Nat := 5000

/-- The chunking `blocks.chunks(MAX_SQL_INSERTS)` /
`transactions_vec.chunks(MAX_SQL_INSERTS)` used by the insert paths. -/
def listChunks {α : Type} (n : Nat) : List α → List (List α)
  | [] => []
  | a :: rest =>
      ((a :: rest).take (n + 1)) :: listChunks n ((a :: rest).drop (n + 1))
termination_by l => l.length
decreasing_by
  simp only [List.length_drop, List.length_cons]
  omega

/-- `Dao::index_transactions_without_commit` applied through the chunking of
`index_transaction_update`: each chunk of rows is inserted with
conflict-do-nothing against the accumulated table state. -/
def indexTransactionsChunked (now : Int) (table : List TokenTransferModel)
    (transactions : List Transaction) : List TokenTransferModel :=
  (listChunks (MAX_SQL_INSERTS - 1) transactions).foldl
    (fun t chunk => insertTransfersOnConflictDoNothing t (transferModels now chunk)) table

/-- `Dao::index_block_metadatas_without_commit`: the block metadata list is
chunked by `MAX_SQL_INSERTS` and each chunk's rows inserted with
conflict-do-nothing. -/
def indexBlockMetadatas (table : List BlockRowModel)
    (blocks : List BlockMetadata) : List BlockRowModel :=
  (listChunks (MAX_SQL_INSERTS - 1) blocks).foldl
    (fun t chunk => insertBlocksOnConflictDoNothing t (blockModels chunk)) table

/-! ## Query API (`api/src/error.rs`, `api/src/api.rs`, `api/src/db.rs`,
`api/src/spec/api_impl.rs`, `api/src/types.rs`) -/

/-- `api/src/error.rs` `ApiError`. -/
inductive ApiError where
  | PaginationExceededError
  | PaginationEmptyError
  | PaginationError
  | OffsetLimitExceededError
  | ServerStartError
  | PubkeyValidationError (s : String)
  | ConfigurationError (msg : String)
  | DatabaseError (s : String)
  | TransactionNotFound (s : String)
  | InvalidDate (s : String)
  | InvalidInput (s : String)
deriving DecidableEq, Repr

/-- `chrono::NaiveDate` as a civil date. -/
structure NaiveDate where
  day : Nat
  month : Nat
  year : Nat
deriving DecidableEq, Repr

def isLeapYear (y : Nat) : Bool :=
  y % 4 = 0 && (y % 100 ≠ 0 || y % 400 = 0)

def daysInMonth (y m : Nat) : Nat :=
  match m with
  | 1 => 31
  | 2 => if isLeapYear y then 29 else 28
  | 3 => 31
  | 4 => 30
  | 5 => 31
  | 6 => 30
  | 7 => 31
  | 8 => 31
  | 9 => 30
  | 10 => 31
  | 11 => 30
  | 12 => 31
  | _ => 0

/-- Split a character list on `'/'` separators. -/
def splitOnSlash : List Char → List (List Char)
  | [] => [[]]
  | c :: rest =>
      if c = '/' then [] :: splitOnSlash rest
      else
        match splitOnSlash rest with
        | g :: gs => (c :: g) :: gs
        | [] => [[c]]

def isDigitChar (c : Char) : Bool := '0' ≤ c && c ≤ '9'

/-- A non-empty all-digit character list read as a decimal number. -/
def digitsToNat (cs : List Char) : Option Nat :=
  if cs.isEmpty || !(cs.all isDigitChar) then none
  else some (cs.foldl (fun acc c => acc * 10 + (c.toNat - 48)) 0)

/-- Model of `chrono::NaiveDate::parse_from_str(s, "%d/%m/%Y")` (an external
library call): two slash-separated numeric day and month fields of one or two
digits, a four-digit numeric year, and calendar validity of the resulting
date. -/
def parseDMY (s : String) : Option NaiveDate :=
  match splitOnSlash s.toList with
  | [ds, ms, ys] =>
      if 1 ≤ ds.length ∧ ds.length ≤ 2 ∧ 1 ≤ ms.length ∧ ms.length ≤ 2 ∧
         ys.length = 4 then
        match digitsToNat ds, digitsToNat ms, digitsToNat ys with
        | some d, some m, some y =>
            if 1 ≤ m ∧ m ≤ 12 ∧ 1 ≤ d ∧ d ≤ daysInMonth y m then
              some { day := d, month := m, year := y }
            else none
        | _, _, _ => none
      else none
  | _ => none

/-- Days in the proleptic-Gregorian years `0, …, y-1`. -/
def daysBeforeYear (y : Nat) : Nat :=
  365 * y + y / 4 - y / 100 + y / 400

/-- Days in the months `1, …, m-1` of year `y`. -/
def daysBeforeMonth (y m : Nat) : Nat :=
  (List.range (m - 1)).foldl (fun acc i => acc + daysInMonth y (i + 1)) 0

/-- Day number of a civil date, counting from 0000-01-01. -/
def civilDayNumber (date : NaiveDate) : Nat :=
  daysBeforeYear date.year + daysBeforeMonth date.year date.month + (date.day - 1)

/-- Day number of the Unix epoch 1970-01-01. -/
def unixEpochDayNumber : Nat := civilDayNumber { day := 1, month := 1, year := 1970 }

/-- The naive (timezone-free) Unix timestamp of a date at a time of day:
model of `NaiveDate::and_hms`. -/
def naiveDatetimeSeconds (date : NaiveDate) (h mi s : Nat) : Int :=
  ((civilDayNumber date : Int) - (unixEpochDayNumber : Int)) * 86400 +
    h * 3600 + mi * 60 + s

/-- `api/src/db.rs` `PageOptions` (`limit: u64`, the rest optional; the
derived `Default` gives `limit = 0` and `None` elsewhere). -/
structure PageOptions where
  limit : Nat
  page : Option Nat
  before : Option NaiveDate
  after : Option NaiveDate
deriving DecidableEq, Repr

/-- The `before` branch of the date parsing in `validate_pagination`. -/
def parseBeforeDate (before : Option String) : Except ApiError (Option NaiveDate) :=
  match before with
  | some s =>
      match parseDMY s with
      | some date => .ok (some date)
      | none => .error (ApiError.InvalidDate "before")
  | none => .ok none

/-- The `after` branch of the date parsing in `validate_pagination`. -/
def parseAfterDate (after : Option String) : Except ApiError (Option NaiveDate) :=
  match after with
  | some s =>
      match parseDMY s with
      | some date => .ok (some date)
      | none => .error (ApiError.InvalidDate "after")
  | none => .ok none

/-- The tail of `validate_pagination` once the limit and page checks passed:
parse `before` then `after` (first failure wins) and assemble the
`PageOptions` with `limit.unwrap_or(1000)`. -/
def pageOptionsOf (limit : Option Nat) (page : Option Nat)
    (before after : Option String) : Except ApiError PageOptions :=
  match parseBeforeDate before with
  | .error e => .error e
  | .ok beforeDate =>
      match parseAfterDate after with
      | .error e => .error e
      | .ok afterDate =>
          .ok { limit := limit.getD 1000, page := page,
                before := beforeDate, after := afterDate }

/-- `Api::validate_pagination` (`api/src/api.rs` lines 50-98).  `limit` and
`page` are `u32` values; the offset `(page - 1) * current_limit` is a `u32`
product, so it is reduced modulo `2^32` (Rust release-mode wrapping
multiplication).  The checks run in source order: limit bound, then — when a
page is supplied — the zero check, the page/date exclusion, and the offset
bound, and finally the date parsing. -/
def validate_pagination (limit : Option Nat) (page : Option Nat)
    (before after : Option String) : Except ApiError PageOptions :=
  if limit.elim false (fun l => l > 1000) then .error ApiError.PaginationExceededError
  else
    match page with
    | some p =>
        if p = 0 then .error ApiError.PaginationEmptyError
        else if before.isSome || after.isSome then .error ApiError.PaginationError
        else if ((p - 1) * limit.getD 1000) % 2 ^ 32 > 500000 then
          .error ApiError.OffsetLimitExceededError
        else pageOptionsOf limit page before after
    | none => pageOptionsOf limit page before after

/-- `api/src/db.rs` `Pagination`. -/
inductive Pagination where
  | keyset (before after : Option NaiveDate)
  | page (page : Nat)
deriving DecidableEq, Repr

/-- `Api::create_pagination` (`api/src/api.rs` lines 36-49): no page means
keyset (with whatever dates are present); a page with no dates means offset
pagination; a page together with a date is `PaginationError`. -/
def create_pagination (page_opt : PageOptions) : Except ApiError Pagination :=
  match page_opt.page with
  | none => .ok (Pagination.keyset page_opt.before page_opt.after)
  | some p =>
      match page_opt.before, page_opt.after with
      | none, none => .ok (Pagination.page p)
      | _, _ => .error ApiError.PaginationError

/-- A SQL predicate on the `block_time` column. -/
inductive BlockTimeFilter where
  | lt (t : Int)
  | gt (t : Int)
deriving DecidableEq, Repr

/-- The pagination shape `paginate` stamps onto a select statement:
`block_time` predicates, an optional `OFFSET`, and a `LIMIT`. -/
structure PaginatedQuery where
  filters : List BlockTimeFilter
  offset : Option Nat
  limit : Nat
deriving DecidableEq, Repr

/-- The fixed timezone of `paginate` (`api/src/db.rs` line 44):
`FixedOffset::east(5 * 3600 + 30 * 60)`, i.e. UTC+5:30, in seconds. -/
def paginateTzOffsetSeconds : Int := 5 * 3600 + 30 * 60

/-- `paginate` (`api/src/db.rs` lines 36-69).  Keyset: `before` becomes a
strict `<` on `block_time` against the instant of `before.and_hms(23,59,59)`
read in the fixed UTC+5:30 offset (so the UTC instant is the naive seconds
minus the offset), `after` a strict `>` against `after.and_hms(0,0,0)` in the
same offset.  Page: `OFFSET (page-1)*limit`.  Both add `LIMIT limit`. -/
def paginate (pagination : Pagination) (limit : Nat) : PaginatedQuery :=
  match pagination with
  | .keyset before after =>
      let beforeFilters := match before with
        | some b =>
            [BlockTimeFilter.lt (naiveDatetimeSeconds b 23 59 59 - paginateTzOffsetSeconds)]
        | none => []
      let afterFilters := match after with
        | some a =>
            [BlockTimeFilter.gt (naiveDatetimeSeconds a 0 0 0 - paginateTzOffsetSeconds)]
        | none => []
      { filters := beforeFilters ++ afterFilters, offset := none, limit := limit }
  | .page p =>
      { filters := []
        offset := if p > 0 then some ((p - 1) * limit) else none
        limit := limit }

/-- `api/src/db.rs` `TransactionSortBy` (only `Created` exists). -/
inductive TransactionSortBy where
  | created
deriving DecidableEq, Repr

/-- `api/src/db.rs` `TransactionSortDirection` (default `Desc`). -/
inductive TransactionSortDirection where
  | asc
  | desc
deriving DecidableEq, Repr

structure TransactionSorting where
  sort_by : TransactionSortBy
  sort_direction : Option TransactionSortDirection
deriving DecidableEq, Repr

/-- The derived `Default` of `TransactionSorting`. -/
def TransactionSorting.default : TransactionSorting :=
  { sort_by := .created, sort_direction := some .desc }

inductive SqlOrder where
  | asc
  | desc
deriving DecidableEq, Repr

/-- `create_sorting` (`api/src/db.rs` lines 117-128). -/
def create_sorting (sorting : TransactionSorting) :
    SqlOrder × Option TokenTransfersColumn :=
  let sort_column := match sorting.sort_by with
    | .created => some TokenTransfersColumn.blockTime
  let sort_direction := match sorting.sort_direction.getD .desc with
    | .desc => SqlOrder.desc
    | .asc => SqlOrder.asc
  (sort_direction, sort_column)

/-- External collaborators of the query API: base58 pubkey decode
(`Pubkey::from_str`) and base58 render (`bs58::encode`). -/
structure ApiEnv where
  parsePubkey : String → Option (List Nat)
  bs58Encode : List Nat → String

/-- `validate_pubkey` (`api/src/api.rs` lines 15-17). -/
def validate_pubkey (env : ApiEnv) (str_pubkey : String) :
    Except ApiError (List Nat) :=
  match env.parsePubkey str_pubkey with
  | some pk => .ok pk
  | none => .error (ApiError.PubkeyValidationError str_pubkey)

/-- Optional-pubkey validation, as inlined in the handler for
`destination` and `mint`. -/
def validateOptPubkey (env : ApiEnv) (input : Option String) :
    Except ApiError (Option (List Nat)) :=
  match input with
  | some s =>
      match validate_pubkey env s with
      | .error e => .error e
      | .ok pk => .ok (some pk)
  | none => .ok none

/-- The JSON named-params payload of `getTransactionsByAddress` as the
caller supplies it: every field may be absent.  The handler in
`api/src/spec/api_impl.rs` destructures `source` as a plain `String`, so
`source` is a required field of the compiled request struct and parameter
deserialization fails when it is absent. -/
structure GetTransactionsByAddressPayload where
  source : Option String
  destination : Option String
  mint : Option String
  before : Option String
  after : Option String
  limit : Option Nat
  page : Option Nat
  sort_by : Option TransactionSorting
deriving DecidableEq, Repr

/-- The payload with every field absent: `get_transactions_by_address({})`. -/
def emptyAddressPayload : GetTransactionsByAddressPayload :=
  { source := none, destination := none, mint := none, before := none,
    after := none, limit := none, page := none, sort_by := none }

/-- The arguments of the `Dao::get_transactions_by_address` call the handler
issues: the mandatory source filter, the optional destination and mint
filters, and the pagination/sorting shape. -/
structure AddressQuery where
  source : List Nat
  destination : Option (List Nat)
  mint : Option (List Nat)
  query : PaginatedQuery
  sort_direction : SqlOrder
  sort_by : Option TokenTransfersColumn
deriving DecidableEq, Repr

/-- Outcome of a JSON-RPC call: a result, a parameter-deserialization
failure (missing or ill-typed named parameter, rejected before the handler
body runs), or a domain `ApiError`. -/
inductive RpcOutcome (α : Type) where
  | ok (a : α)
  | invalidParams
  | apiError (e : ApiError)
deriving DecidableEq, Repr

/-- `ApiContract::get_transactions_by_address`
(`api/src/spec/api_impl.rs` lines 36-86), up to the `Dao` call it issues:
`source` is validated unconditionally (a payload without it never reaches
the handler), `destination` and `mint` are validated when present, then
pagination is validated and composed. -/
def get_transactions_by_address (env : ApiEnv)
    (payload : GetTransactionsByAddressPayload) : RpcOutcome AddressQuery :=
  match payload.source with
  | none => .invalidParams
  | some sourceStr =>
      match validate_pubkey env sourceStr with
      | .error e => .apiError e
      | .ok source =>
          match validateOptPubkey env payload.destination with
          | .error e => .apiError e
          | .ok destination =>
              match validateOptPubkey env payload.mint with
              | .error e => .apiError e
              | .ok mint =>
                  match validate_pagination payload.limit payload.page
                      payload.before payload.after with
                  | .error e => .apiError e
                  | .ok page_opt =>
                      match create_pagination page_opt with
                      | .error e => .apiError e
                      | .ok pagination =>
                          let sorting := create_sorting
                            (payload.sort_by.getD TransactionSorting.default)
                          .ok { source := source
                                destination := destination
                                mint := mint
                                query := paginate pagination page_opt.limit
                                sort_direction := sorting.1
                                sort_by := sorting.2 }

/-- `api/src/types.rs` `Transaction` (the JSON response row). -/
structure ApiTransaction where
  signature : String
  source_address : String
  token_type : String
  destination_address : String
  source_ata : Option String
  destination_ata : Option String
  mint_address : Option String
  slot : Int
  amount : Int
  error : Option String
  block_time : Int
deriving DecidableEq, Repr

/-- `impl From<token_transfers::Model> for Transaction`
(`api/src/types.rs` lines 47-65): byte columns are base58-rendered and the
numeric columns pass through unchanged. -/
def ApiTransaction.fromModel (env : ApiEnv) (model : TokenTransferModel) :
    ApiTransaction :=
  { signature := env.bs58Encode model.signature
    source_address := env.bs58Encode model.source_address
    token_type := model.token_type
    destination_address := env.bs58Encode model.destination_address
    source_ata := model.source_ata.map env.bs58Encode
    destination_ata := model.destination_ata.map env.bs58Encode
    mint_address := model.mint_address.map env.bs58Encode
    slot := model.slot
    amount := model.amount
    error := model.error
    block_time := model.block_time }

/-! ## Concrete fixtures used by witness and counterexample theorems -/

/-- A 32-byte pubkey fixture. -/
def pkFix (b : Nat) : List Nat := List.replicate 32 b

/-- A block fixture with the given slot and parent slot. -/
def blockFix (slot parent : Nat) : BlockInfo :=
  { metadata :=
      { slot := slot, parent_slot := parent, block_time := 0, blockhash := "",
        parent_blockhash := "", block_height := 0 }
    transactions := [] }

/-- A config whose cursor is 100 and whose `index_recent` flag is set. -/
def cfgGapFix : BlockStreamConfig :=
  { grpc_url := some "http://grpc.example", grpc_x_token := "",
    max_concurrent_block_fetches := 20, last_indexed_slot := 100,
    index_recent := true }

/-- A poll environment: slot 3 is skipped, every other slot yields a block
at that slot; completion order is the submission order. -/
def pollerEnvFix : PollerFetchEnv :=
  { fetch := fun s => if s = 3 then none else some (blockFix s (s - 1))
    reorder := fun _ l => l }

/-- A parser environment: `[3, 1]` decodes as `Transfer { amount := 5 }`,
`"ix"` bs58-decodes to `[3, 1]`, `"MintA"` is a valid mint string, and the
token program id is `pkFix 7`. -/
def splEnvFix : SplEnv :=
  { unpackTransfer := fun data => if data = [3, 1] then some 5 else none
    findAta := fun _ _ _ => pkFix 9
    pubkeyFromStr := fun s => if s = "MintA" then some (pkFix 2) else none
    bs58Decode := fun s => if s = "ix" then some [3, 1] else none
    utf8Decode := fun _ => none
    token_program_id := pkFix 7
    token_extensions_program_id := pkFix 8 }

/-- A push block whose proto `block_time` field is absent. -/
def blockNoTimeFix : SubscribeUpdateBlock :=
  { slot := 10, parent_slot := 9, block_time := none, blockhash := "",
    parent_blockhash := "", block_height := some { block_height := 1 },
    transactions := [] }

/-- A push block whose proto `block_height` field is absent. -/
def blockNoHeightFix : SubscribeUpdateBlock :=
  { slot := 10, parent_slot := 9, block_time := some { timestamp := 0 },
    blockhash := "", parent_blockhash := "", block_height := none,
    transactions := [] }

/-- A poll transaction whose outer instruction is a well-formed token
transfer and whose inner instruction is a token transfer carrying an empty
account list. -/
def vtInnerShortFix : VersionedTransaction :=
  { signatures := [List.replicate 64 1]
    message :=
      { static_account_keys := [pkFix 7, pkFix 4, pkFix 5]
        has_address_table_lookups := false
        instructions := [{ program_id_index := 0, accounts := [1, 2], data := [3, 1] }] } }

/-- The meta for `vtInnerShortFix`: a present post-token balance and one
inner compiled token-transfer instruction with no accounts. -/
def metaInnerShortFix : UiTransactionStatusMeta :=
  { err := none
    loaded_addresses := .skip
    post_token_balances := .some [{ mint := "MintA" }]
    inner_instructions :=
      .some [{ index := 0
               instructions := [.compiled { program_id_index := 0, accounts := [], data := "ix" }] }] }

/-- An API environment in which exactly the string `"srcpk"` decodes. -/
def apiEnvFix : ApiEnv :=
  { parsePubkey := fun s => if s = "srcpk" then some (pkFix 1) else none
    bs58Encode := fun _ => "" }

/-- A payload carrying only a mint filter. -/
def mintOnlyPayloadFix : GetTransactionsByAddressPayload :=
  { emptyAddressPayload with mint := some "srcpk" }

/-- A payload carrying only the source filter. -/
def sourceOnlyPayloadFix : GetTransactionsByAddressPayload :=
  { emptyAddressPayload with source := some "srcpk" }

/-! # Theorems -/

theorem StateUpdate.eq_of_transactions {a b : StateUpdate}
    (h : a.transactions = b.transactions) : a = b := by
  cases a; cases b; simpa using h

theorem merge_updates_foldl_mem (updates : List StateUpdate) :
    ∀ (acc : Finset Transaction) (t : Transaction),
      (t ∈ (updates.foldl (fun merged update =>
          ({ transactions := merged.transactions ∪ update.transactions } : StateUpdate))
          ⟨acc⟩).transactions) ↔ t ∈ acc ∨ ∃ s ∈ updates, t ∈ s.transactions := by
  induction updates with
  | nil => intro acc t; simp
  | cons u us ih =>
      intro acc t
      simp only [List.foldl_cons]
      rw [ih (acc ∪ u.transactions) t]
      simp [Finset.mem_union, or_assoc]

theorem merge2_transactions (a b : StateUpdate) :
    (a.merge2 b).transactions = a.transactions ∪ b.transactions := by
  simp [StateUpdate.merge2, StateUpdate.merge_updates, StateUpdate.default]

/-- C6: `merge_updates` of a list of `StateUpdate`s is their set union
(membership in the merged transaction set is membership in some input), and
the binary merge is associative, commutative, and idempotent. -/
theorem merge_updates_is_set_union :
    (∀ (updates : List StateUpdate) (t : Transaction),
        t ∈ (StateUpdate.merge_updates updates).transactions ↔
          ∃ s ∈ updates, t ∈ s.transactions) ∧
    (∀ a b c : StateUpdate, (a.merge2 b).merge2 c = a.merge2 (b.merge2 c)) ∧
    (∀ a b : StateUpdate, a.merge2 b = b.merge2 a) ∧
    (∀ a : StateUpdate, a.merge2 a = a) := by
  refine ⟨?_, ?_, ?_, ?_⟩
  · intro updates t
    have h := merge_updates_foldl_mem updates ∅ t
    simpa [StateUpdate.merge_updates, StateUpdate.default] using h
  · intro a b c
    apply StateUpdate.eq_of_transactions
    simp [merge2_transactions, Finset.union_assoc]
  · intro a b
    apply StateUpdate.eq_of_transactions
    simp [merge2_transactions, Finset.union_comm]
  · intro a
    apply StateUpdate.eq_of_transactions
    simp [merge2_transactions]

theorem grpcFallbackRun_parentChain :
    ∀ (events : List StreamEvent) (s : FallbackState),
      parentChain s.last_indexed_slot (grpcFallbackRun s events) = true := by
  intro events
  induction events with
  | nil => intro s; simp [grpcFallbackRun, parentChain]
  | cons e es ih =>
      intro s
      show parentChain s.last_indexed_slot
        ((grpcFallbackStep s e).2 ++ grpcFallbackRun (grpcFallbackStep s e).1 es) = true
      rcases e with b | b | _
      · by_cases hp : s.poll_active
        · by_cases hc : b.metadata.parent_slot = s.last_indexed_slot
          · simpa [grpcFallbackStep, hp, hc, parentChain] using
              ih { last_indexed_slot := b.metadata.slot, poll_active := false }
          · simpa [grpcFallbackStep, hp, hc] using ih s
        · by_cases h0 : b.metadata.slot = 0
          · simpa [grpcFallbackStep, hp, h0] using ih s
          · by_cases hc : b.metadata.parent_slot = s.last_indexed_slot
            · simpa [grpcFallbackStep, hp, h0, hc, parentChain] using
                ih { s with last_indexed_slot := b.metadata.slot }
            · simpa [grpcFallbackStep, hp, h0, hc] using
                ih { s with poll_active := true }
      · by_cases hp : s.poll_active
        · by_cases hc : b.metadata.parent_slot = s.last_indexed_slot
          · simpa [grpcFallbackStep, hp, hc, parentChain] using
              ih { s with last_indexed_slot := b.metadata.slot }
          · simpa [grpcFallbackStep, hp, hc] using ih s
        · simpa [grpcFallbackStep, hp] using ih s
      · by_cases hp : s.poll_active
        · simpa [grpcFallbackStep, hp] using ih { s with poll_active := false }
        · simpa [grpcFallbackStep, hp] using ih s

/-- C1: the composed streamer emits a parent-linked chain — over every
interleaving of push and poll-fallback events, each emitted block's
`parent_slot` equals the slot of the previously emitted block, with the
configured `last_indexed_slot` as the initial predecessor.  Moreover, in
push-only mode a continuous pushed block is emitted and advances the cursor
to its slot, and a non-continuous pushed block is withheld and activates the
poll fallback. -/
theorem grpc_fallback_stream_parent_linked :
    (∀ (config : BlockStreamConfig) (events : List StreamEvent),
        parentChain config.last_indexed_slot
          (getGrpcStreamWithRpcFallback config events) = true) ∧
    (∀ (s : FallbackState) (b : BlockInfo),
        s.poll_active = false →
        b.metadata.slot ≠ 0 →
        b.metadata.parent_slot = s.last_indexed_slot →
        grpcFallbackStep s (.push b) =
          ({ s with last_indexed_slot := b.metadata.slot }, [b])) ∧
    (∀ (s : FallbackState) (b : BlockInfo),
        s.poll_active = false →
        b.metadata.slot ≠ 0 →
        b.metadata.parent_slot ≠ s.last_indexed_slot →
        grpcFallbackStep s (.push b) = ({ s with poll_active := true }, [])) := by
  refine ⟨?_, ?_, ?_⟩
  · intro config events
    exact grpcFallbackRun_parentChain events ⟨config.last_indexed_slot, false⟩
  · intro s b hp h0 hc
    simp [grpcFallbackStep, hp, h0, hc]
  · intro s b hp h0 hc
    simp [grpcFallbackStep, hp, h0, hc]

/-- Witness for C1 at concrete inputs: a gap trace (push 200 over cursor
100, poll blocks 101 and 200) emits a parent-linked chain, and the two step
facts hold at slots 101 and 200. -/
theorem grpc_fallback_stream_parent_linked_witness :
    parentChain 100
      (getGrpcStreamWithRpcFallback cfgGapFix
        [.push (blockFix 200 150), .poll (blockFix 101 100),
         .pollEnd, .push (blockFix 200 101)]) = true ∧
    grpcFallbackStep ⟨100, false⟩ (.push (blockFix 101 100)) =
      ({ last_indexed_slot := 101, poll_active := false }, [blockFix 101 100]) ∧
    grpcFallbackStep ⟨100, false⟩ (.push (blockFix 200 150)) =
      ({ last_indexed_slot := 100, poll_active := true }, []) := by
  refine ⟨grpc_fallback_stream_parent_linked.1 cfgGapFix _, ?_, ?_⟩
  · exact grpc_fallback_stream_parent_linked.2.1 ⟨100, false⟩ (blockFix 101 100)
      rfl (by decide) rfl
  · exact grpc_fallback_stream_parent_linked.2.2 ⟨100, false⟩ (blockFix 200 150)
      rfl (by decide) (by decide)

/-- C2 counterexample: with `index_recent` set (`cfgGapFix`), the pushed
block at slot 200 with parent slot 150 (cursor 100) is **not** emitted, and
the step activates the poll fallback — refuting that under `index_recent`
every non-sentinel pushed block is emitted with no poll fallback spawned. -/
theorem index_recent_counterexample :
    cfgGapFix.index_recent = true ∧
    getGrpcStreamWithRpcFallback cfgGapFix [.push (blockFix 200 150)] = [] ∧
    (grpcFallbackStep ⟨100, false⟩ (.push (blockFix 200 150))).1.poll_active = true := by
  refine ⟨rfl, by decide, by decide⟩

/-- C2 (amended): the `index_recent` flag is read from configuration but the
composed streamer never consults it — the emitted stream is identical for
either flag value, and even with the flag set a non-continuous pushed block
is withheld and activates the poll fallback. -/
theorem index_recent_has_no_effect :
    (∀ (config : BlockStreamConfig) (flag : Bool) (events : List StreamEvent),
        getGrpcStreamWithRpcFallback { config with index_recent := flag } events =
          getGrpcStreamWithRpcFallback config events) ∧
    (∀ (config : BlockStreamConfig) (b : BlockInfo),
        config.index_recent = true →
        b.metadata.slot ≠ 0 →
        b.metadata.parent_slot ≠ config.last_indexed_slot →
        getGrpcStreamWithRpcFallback config [.push b] = [] ∧
        (grpcFallbackStep ⟨config.last_indexed_slot, false⟩
            (.push b)).1.poll_active = true) := by
  refine ⟨?_, ?_⟩
  · intro config flag events; rfl
  · intro config b _ h0 hc
    constructor
    · simp [getGrpcStreamWithRpcFallback, grpcFallbackRun, grpcFallbackStep, h0, hc]
    · simp [grpcFallbackStep, h0, hc]

/-- Witness for C2 (amended) at concrete inputs. -/
theorem index_recent_has_no_effect_witness :
    getGrpcStreamWithRpcFallback { cfgGapFix with index_recent := false }
        [.push (blockFix 101 100)] =
      getGrpcStreamWithRpcFallback cfgGapFix [.push (blockFix 101 100)] ∧
    (getGrpcStreamWithRpcFallback cfgGapFix [.push (blockFix 200 150)] = [] ∧
      (grpcFallbackStep ⟨100, false⟩ (.push (blockFix 200 150))).1.poll_active = true) := by
  refine ⟨index_recent_has_no_effect.1 cfgGapFix false _, ?_⟩
  exact index_recent_has_no_effect.2 cfgGapFix (blockFix 200 150) rfl
    (by decide) (by decide)

theorem insertOnConflict_cons {α κ : Type} [DecidableEq κ] (key : α → κ)
    (table : List α) (r : α) (rs : List α) :
    insertOnConflict key table (r :: rs) =
      insertOnConflict key
        (if table.any (fun x => key x = key r) then table else table ++ [r]) rs := rfl

theorem mem_insertOnConflict {α κ : Type} [DecidableEq κ] (key : α → κ) :
    ∀ (rows table : List α) (x : α), x ∈ table → x ∈ insertOnConflict key table rows := by
  intro rows
  induction rows with
  | nil => intro table x hx; exact hx
  | cons r rs ih =>
      intro table x hx
      rw [insertOnConflict_cons]
      apply ih
      split
      · exact hx
      · exact List.mem_append_left _ hx

theorem key_mem_insertOnConflict {α κ : Type} [DecidableEq κ] (key : α → κ) :
    ∀ (rows table : List α) (r : α), r ∈ rows →
      ∃ x ∈ insertOnConflict key table rows, key x = key r := by
  intro rows
  induction rows with
  | nil => intro table r hr; cases hr
  | cons a rs ih =>
      intro table r hr
      rcases List.mem_cons.mp hr with rfl | hr
      · rw [insertOnConflict_cons]
        by_cases h : table.any (fun x => key x = key r) = true
        · rcases List.any_eq_true.mp h with ⟨x, hx, hkey⟩
          refine ⟨x, ?_, of_decide_eq_true hkey⟩
          rw [if_pos h]
          exact mem_insertOnConflict key rs table x hx
        · refine ⟨r, ?_, rfl⟩
          rw [if_neg h]
          exact mem_insertOnConflict key rs (table ++ [r]) r
            (List.mem_append_right _ (List.mem_singleton.mpr rfl))
      · exact ih _ r hr

theorem insertOnConflict_eq_self {α κ : Type} [DecidableEq κ] (key : α → κ) :
    ∀ (rows table : List α),
      (∀ r ∈ rows, table.any (fun x => key x = key r) = true) →
      insertOnConflict key table rows = table := by
  intro rows
  induction rows with
  | nil => intro table _; rfl
  | cons r rs ih =>
      intro table h
      rw [insertOnConflict_cons, if_pos (h r (List.mem_cons_self r rs))]
      exact ih table (fun x hx => h x (List.mem_cons_of_mem _ hx))

theorem insertOnConflict_idem {α κ : Type} [DecidableEq κ] (key : α → κ)
    (rows1 rows2 table : List α)
    (h : ∀ r ∈ rows2, ∃ r1 ∈ rows1, key r1 = key r) :
    insertOnConflict key (insertOnConflict key table rows1) rows2 =
      insertOnConflict key table rows1 := by
  apply insertOnConflict_eq_self
  intro r hr
  rcases h r hr with ⟨r1, hr1, hkey⟩
  rcases key_mem_insertOnConflict key rows1 table r1 hr1 with ⟨x, hx, hxkey⟩
  exact List.any_eq_true.mpr ⟨x, hx, decide_eq_true (hxkey.trans hkey)⟩

theorem insertOnConflict_append {α κ : Type} [DecidableEq κ] (key : α → κ)
    (table xs ys : List α) :
    insertOnConflict key table (xs ++ ys) =
      insertOnConflict key (insertOnConflict key table xs) ys := by
  simp [insertOnConflict, List.foldl_append]

theorem listChunks_cons {α : Type} (n : Nat) (a : α) (l : List α) :
    listChunks n (a :: l) =
      ((a :: l).take (n + 1)) :: listChunks n ((a :: l).drop (n + 1)) := by
  rw [listChunks]

theorem foldl_insert_chunks {α β κ : Type} [DecidableEq κ] (key : α → κ)
    (g : List β → List α) (hg : ∀ xs ys, g (xs ++ ys) = g xs ++ g ys) (n : Nat) :
    ∀ (l : List β) (table : List α),
      (listChunks n l).foldl (fun t c => insertOnConflict key t (g c)) table =
        insertOnConflict key table (g l) := by
  have hnil : g [] = [] := by
    have h := hg [] []
    simp only [List.append_nil] at h
    exact (List.self_eq_append_right.mp h)
  have H : ∀ (m : Nat) (l : List β), l.length ≤ m → ∀ table : List α,
      (listChunks n l).foldl (fun t c => insertOnConflict key t (g c)) table =
        insertOnConflict key table (g l) := by
    intro m
    induction m with
    | zero =>
        intro l hl table
        have hempty : l = [] := List.eq_nil_of_length_eq_zero (Nat.le_zero.mp hl)
        subst hempty
        simp [listChunks, hnil, insertOnConflict]
    | succ m ih =>
        intro l hl table
        cases l with
        | nil => simp [listChunks, hnil, insertOnConflict]
        | cons a rest =>
            rw [listChunks_cons, List.foldl_cons]
            have hlen : ((a :: rest).drop (n + 1)).length ≤ m := by
              simp only [List.length_drop, List.length_cons]
              simp only [List.length_cons] at hl
              omega
            rw [ih ((a :: rest).drop (n + 1)) hlen]
            rw [← insertOnConflict_append, ← hg, List.take_append_drop]
  intro l table
  exact H l.length l (Nat.le_refl _) table

theorem transferModels_append (now : Int) (xs ys : List Transaction) :
    transferModels now (xs ++ ys) = transferModels now xs ++ transferModels now ys := by
  simp [transferModels]

theorem blockModels_append (xs ys : List BlockMetadata) :
    blockModels (xs ++ ys) = blockModels xs ++ blockModels ys := by
  simp [blockModels]

theorem indexTransactionsChunked_eq (now : Int) (table : List TokenTransferModel)
    (txs : List Transaction) :
    indexTransactionsChunked now table txs =
      insertOnConflict transferRowKey table (transferModels now txs) :=
  foldl_insert_chunks transferRowKey (transferModels now) (transferModels_append now)
    (MAX_SQL_INSERTS - 1) txs table

theorem indexBlockMetadatas_eq (table : List BlockRowModel)
    (blocks : List BlockMetadata) :
    indexBlockMetadatas table blocks =
      insertOnConflict blockRowKey table (blockModels blocks) :=
  foldl_insert_chunks blockRowKey blockModels blockModels_append
    (MAX_SQL_INSERTS - 1) blocks table

theorem transferModels_keys (now : Int) (txs : List Transaction) :
    (transferModels now txs).map transferRowKey =
      txs.flatMap (fun t => t.instruction_groups.map (fun g =>
        (t.signature, g.outer_instruction.source_address,
         g.outer_instruction.destination_address, t.block_time))) := by
  simp only [transferModels, List.map_flatMap, List.map_map]
  rfl

theorem transferModels_key_exists (now1 now2 : Int) (txs : List Transaction) :
    ∀ r ∈ transferModels now2 txs, ∃ r1 ∈ transferModels now1 txs,
      transferRowKey r1 = transferRowKey r := by
  intro r hr
  have h2 : transferRowKey r ∈ (transferModels now2 txs).map transferRowKey :=
    List.mem_map_of_mem _ hr
  rw [transferModels_keys now2, ← transferModels_keys now1] at h2
  rcases List.mem_map.mp h2 with ⟨r1, hr1, hkey⟩
  exact ⟨r1, hr1, hkey⟩

/-- C5: the conflict targets used by the two inserts are exactly the
generated primary keys (as column sets), and indexing the same batch twice —
with any wall-clock `created_at` values — leaves both stored row sets exactly
as after one indexing. -/
theorem indexing_idempotent_on_conflict_pk :
    tokenTransfersConflictTarget.toFinset = tokenTransfersPrimaryKey.toFinset ∧
    blocksConflictTarget.toFinset = blocksPrimaryKey.toFinset ∧
    (∀ (table : List TokenTransferModel) (transactions : List Transaction)
        (now1 now2 : Int),
        indexTransactionsChunked now2
            (indexTransactionsChunked now1 table transactions) transactions =
          indexTransactionsChunked now1 table transactions) ∧
    (∀ (table : List BlockRowModel) (blocks : List BlockMetadata),
        indexBlockMetadatas (indexBlockMetadatas table blocks) blocks =
          indexBlockMetadatas table blocks) := by
  refine ⟨by decide, by decide, ?_, ?_⟩
  · intro table transactions now1 now2
    simp only [indexTransactionsChunked_eq]
    exact insertOnConflict_idem transferRowKey _ _ table
      (transferModels_key_exists now1 now2 transactions)
  · intro table blocks
    simp only [indexBlockMetadatas_eq]
    exact insertOnConflict_idem blockRowKey _ _ table
      (fun r hr => ⟨r, hr, rfl⟩)

/-- C10: every persisted transfer stores the parser's unsigned 64-bit amount
through the reinterpreting `as i64` cast (value mod `2^64` re-read as signed
two's complement), so an amount below `2^63` is stored verbatim, an amount in
`[2^63, 2^64)` is stored as the negative `amount - 2^64`, and the query API
returns the stored signed value unchanged. -/
theorem transfer_amount_stored_as_wrapping_i64 :
    (∀ (now : Int) (transactions : List Transaction),
        (transferModels now transactions).map (fun m => m.amount) =
          transactions.flatMap (fun t => t.instruction_groups.map
            (fun g => u64_as_i64 g.outer_instruction.amount))) ∧
    (∀ n : Nat, n < 2 ^ 63 → u64_as_i64 n = (n : Int)) ∧
    (∀ n : Nat, 2 ^ 63 ≤ n → n < 2 ^ 64 →
        u64_as_i64 n = (n : Int) - 2 ^ 64 ∧ u64_as_i64 n < 0) ∧
    (∀ (env : ApiEnv) (model : TokenTransferModel),
        (ApiTransaction.fromModel env model).amount = model.amount) := by
  refine ⟨?_, ?_, ?_, ?_⟩
  · intro now transactions
    simp only [transferModels, List.map_flatMap, List.map_map]
    rfl
  · intro n hn
    have hlt : n < 2 ^ 64 := lt_trans hn (by norm_num)
    have hmod : n % 2 ^ 64 = n := Nat.mod_eq_of_lt hlt
    unfold u64_as_i64
    rw [hmod, if_pos hn]
  · intro n hge hlt
    have hmod : n % 2 ^ 64 = n := Nat.mod_eq_of_lt hlt
    have hnotlt : ¬ n % 2 ^ 64 < 2 ^ 63 := by
      rw [hmod]; exact Nat.not_lt.mpr hge
    have heq : u64_as_i64 n = (n : Int) - 2 ^ 64 := by
      unfold u64_as_i64
      rw [if_neg hnotlt, hmod]
    refine ⟨heq, ?_⟩
    rw [heq]
    have hcast : (n : Int) < 2 ^ 64 := by exact_mod_cast hlt
    omega
  · intro env model
    rfl

/-- Witness for C10 at concrete inputs: 1000 is stored as 1000, `2^63` is
stored as `-(2^63)`, and the API row carries the stored amount. -/
theorem transfer_amount_stored_as_wrapping_i64_witness :
    u64_as_i64 1000 = (1000 : Int) ∧
    (u64_as_i64 (2 ^ 63) = ((2 ^ 63 : Nat) : Int) - 2 ^ 64 ∧
      u64_as_i64 (2 ^ 63) < 0) ∧
    (ApiTransaction.fromModel apiEnvFix
      { signature := [], slot := 0, error := none, block_time := 0,
        created_at := 0, source_address := [], destination_address := [],
        mint_address := none, source_ata := none, destination_ata := none,
        amount := -1, token_type := "spl_token" }).amount = -1 := by
  refine ⟨?_, ?_, ?_⟩
  · exact transfer_amount_stored_as_wrapping_i64.2.1 1000 (by norm_num)
  · exact transfer_amount_stored_as_wrapping_i64.2.2.1 (2 ^ 63) (le_refl _) (by norm_num)
  · exact transfer_amount_stored_as_wrapping_i64.2.2.2 apiEnvFix _

/-- C7 counterexample: the call `{page: 100, limit: 10000}` does **not**
return `OffsetLimitExceededError` — the `limit > 1000` check runs first, so
`validate_pagination` returns `PaginationExceededError`. -/
theorem offset_limit_counterexample :
    validate_pagination (some 10000) (some 100) none none =
      .error ApiError.PaginationExceededError ∧
    ApiError.PaginationExceededError ≠ ApiError.OffsetLimitExceededError := by
  exact ⟨rfl, by decide⟩

/-- C7 (amended): when a page is supplied with no `before`/`after` and the
limit passes its own `≤ 1000` check (or is absent), an offset
`(page-1)·limit` — computed in wrapping 32-bit arithmetic — exceeding
500 000 yields `OffsetLimitExceededError`; the call
`{page: 100, limit: 10000}` instead yields `PaginationExceededError`
because the limit check precedes the offset check. -/
theorem offset_limit_exceeded_amended (limit : Option Nat) (p : Nat)
    (hlimit : limit.elim false (fun l => l > 1000) = false)
    (hp : p ≠ 0)
    (hoffset : ((p - 1) * limit.getD 1000) % 2 ^ 32 > 500000) :
    validate_pagination limit (some p) none none =
      .error ApiError.OffsetLimitExceededError := by
  simp [validate_pagination, hlimit, hp, hoffset]
  intro hle
  norm_num at hoffset
  omega

/-- Witness for C7 (amended): `{page: 502, limit: 1000}` (offset 501 000)
yields `OffsetLimitExceededError`. -/
theorem offset_limit_exceeded_amended_witness :
    validate_pagination (some 1000) (some 502) none none =
      .error ApiError.OffsetLimitExceededError :=
  offset_limit_exceeded_amended (some 1000) 502 rfl (by decide) (by norm_num)

/-- C8: a `before`/`after` string that fails the exact `DD/MM/YYYY` parse
yields `InvalidDate` naming the offending field; accepted dates are threaded
into the page options, and `paginate` turns `before` into a strict `<` on
`block_time` at 23:59:59 of that day and `after` into a strict `>` at
00:00:00, both read in the one fixed timezone offset the code uses
(UTC+5:30, i.e. 19 800 seconds). -/
theorem keyset_date_validation :
    (∀ (limit : Option Nat) (s : String) (after : Option String),
        limit.elim false (fun l => l > 1000) = false →
        parseDMY s = none →
        validate_pagination limit none (some s) after =
          .error (ApiError.InvalidDate "before")) ∧
    (∀ (limit : Option Nat) (before : Option String) (bd : Option NaiveDate)
        (t : String),
        limit.elim false (fun l => l > 1000) = false →
        parseBeforeDate before = .ok bd →
        parseDMY t = none →
        validate_pagination limit none before (some t) =
          .error (ApiError.InvalidDate "after")) ∧
    (∀ (limit : Option Nat) (s t : String) (db da : NaiveDate),
        limit.elim false (fun l => l > 1000) = false →
        parseDMY s = some db →
        parseDMY t = some da →
        validate_pagination limit none (some s) (some t) =
          .ok { limit := limit.getD 1000, page := none,
                before := some db, after := some da }) ∧
    (∀ (b a : NaiveDate) (limit : Nat),
        paginate (Pagination.keyset (some b) (some a)) limit =
          { filters := [BlockTimeFilter.lt
                (naiveDatetimeSeconds b 23 59 59 - paginateTzOffsetSeconds),
              BlockTimeFilter.gt
                (naiveDatetimeSeconds a 0 0 0 - paginateTzOffsetSeconds)],
            offset := none, limit := limit }) ∧
    paginateTzOffsetSeconds = 19800 := by
  refine ⟨?_, ?_, ?_, ?_, by norm_num [paginateTzOffsetSeconds]⟩
  · intro limit s after hlimit hparse
    simp [validate_pagination, hlimit, pageOptionsOf, parseBeforeDate, hparse]
  · intro limit before bd t hlimit hbefore hparse
    simp [validate_pagination, hlimit, pageOptionsOf, hbefore, parseAfterDate, hparse]
  · intro limit s t db da hlimit hs ht
    simp [validate_pagination, hlimit, pageOptionsOf, parseBeforeDate,
      parseAfterDate, hs, ht]
  · intro b a limit
    simp [paginate]

/-- Witness for C8 at concrete inputs: `"2024-01-01"` is rejected as
`InvalidDate("before")` / `InvalidDate("after")`, `"01/01/2024"` and
`"02/01/2024"` are accepted and threaded through, and the resulting keyset
filters are the strict end-of-day `<` and start-of-day `>` instants. -/
theorem keyset_date_validation_witness :
    validate_pagination none none (some "2024-01-01") none =
      .error (ApiError.InvalidDate "before") ∧
    validate_pagination none none (some "01/01/2024") (some "2024-01-01") =
      .error (ApiError.InvalidDate "after") ∧
    validate_pagination none none (some "01/01/2024") (some "02/01/2024") =
      .ok { limit := 1000, page := none,
            before := some { day := 1, month := 1, year := 2024 },
            after := some { day := 2, month := 1, year := 2024 } } ∧
    paginate (Pagination.keyset (some { day := 1, month := 1, year := 2024 })
        (some { day := 2, month := 1, year := 2024 })) 1000 =
      { filters := [BlockTimeFilter.lt
            (naiveDatetimeSeconds { day := 1, month := 1, year := 2024 } 23 59 59 -
              paginateTzOffsetSeconds),
          BlockTimeFilter.gt
            (naiveDatetimeSeconds { day := 2, month := 1, year := 2024 } 0 0 0 -
              paginateTzOffsetSeconds)],
        offset := none, limit := 1000 } := by
  refine ⟨?_, ?_, ?_, ?_⟩
  · exact keyset_date_validation.1 none "2024-01-01" none rfl (by decide)
  · exact keyset_date_validation.2.1 none (some "01/01/2024")
      (some { day := 1, month := 1, year := 2024 }) "2024-01-01" rfl
      (by simp [parseBeforeDate, show parseDMY "01/01/2024" =
        some { day := 1, month := 1, year := 2024 } from by decide]) (by decide)
  · exact keyset_date_validation.2.2.1 none "01/01/2024" "02/01/2024"
      { day := 1, month := 1, year := 2024 } { day := 2, month := 1, year := 2024 }
      rfl (by decide) (by decide)
  · exact keyset_date_validation.2.2.2.1 _ _ 1000

theorem validate_pubkey_error_shape (env : ApiEnv) (s : String) (e : ApiError)
    (h : validate_pubkey env s = .error e) :
    e = ApiError.PubkeyValidationError s := by
  unfold validate_pubkey at h
  cases hp : env.parsePubkey s with
  | some pk => rw [hp] at h; cases h
  | none => rw [hp] at h; exact (Except.error.inj h).symm

theorem validateOptPubkey_error_shape (env : ApiEnv) (o : Option String)
    (e : ApiError) (h : validateOptPubkey env o = .error e) :
    ∃ s, e = ApiError.PubkeyValidationError s := by
  cases o with
  | none => exact Except.noConfusion h
  | some s =>
      cases hv : validate_pubkey env s with
      | error e2 =>
          simp only [validateOptPubkey, hv] at h
          cases h
          exact ⟨s, validate_pubkey_error_shape env s _ hv⟩
      | ok pk =>
          simp only [validateOptPubkey, hv] at h
          exact Except.noConfusion h

theorem parseBeforeDate_error_shape (before : Option String) (e : ApiError)
    (h : parseBeforeDate before = .error e) : e = ApiError.InvalidDate "before" := by
  cases before with
  | none => exact Except.noConfusion h
  | some s =>
      cases hp : parseDMY s with
      | some d =>
          simp only [parseBeforeDate, hp] at h
          exact Except.noConfusion h
      | none =>
          simp only [parseBeforeDate, hp] at h
          cases h
          rfl

theorem parseAfterDate_error_shape (after : Option String) (e : ApiError)
    (h : parseAfterDate after = .error e) : e = ApiError.InvalidDate "after" := by
  cases after with
  | none => exact Except.noConfusion h
  | some s =>
      cases hp : parseDMY s with
      | some d =>
          simp only [parseAfterDate, hp] at h
          exact Except.noConfusion h
      | none =>
          simp only [parseAfterDate, hp] at h
          cases h
          rfl

theorem pageOptionsOf_error_shape (limit : Option Nat) (page : Option Nat)
    (before after : Option String) (e : ApiError)
    (h : pageOptionsOf limit page before after = .error e) :
    e = ApiError.InvalidDate "before" ∨ e = ApiError.InvalidDate "after" := by
  unfold pageOptionsOf at h
  cases hb : parseBeforeDate before with
  | error e2 =>
      rw [hb] at h
      cases h
      exact Or.inl (parseBeforeDate_error_shape before _ hb)
  | ok bd =>
      rw [hb] at h
      cases ha : parseAfterDate after with
      | error e2 =>
          rw [ha] at h
          cases h
          exact Or.inr (parseAfterDate_error_shape after _ ha)
      | ok ad => rw [ha] at h; cases h

theorem validate_pagination_not_invalid_input (limit page : Option Nat)
    (before after : Option String) (msg : String) :
    validate_pagination limit page before after ≠
      .error (ApiError.InvalidInput msg) := by
  intro h
  unfold validate_pagination at h
  split at h
  · exact ApiError.noConfusion (Except.error.inj h)
  · split at h
    · split at h
      · exact ApiError.noConfusion (Except.error.inj h)
      · split at h
        · exact ApiError.noConfusion (Except.error.inj h)
        · split at h
          · exact ApiError.noConfusion (Except.error.inj h)
          · rcases pageOptionsOf_error_shape _ _ _ _ _ h with h2 | h2 <;>
              exact ApiError.noConfusion h2
    · rcases pageOptionsOf_error_shape _ _ _ _ _ h with h2 | h2 <;>
        exact ApiError.noConfusion h2

theorem create_pagination_error_shape (page_opt : PageOptions) (e : ApiError)
    (h : create_pagination page_opt = .error e) : e = ApiError.PaginationError := by
  unfold create_pagination at h
  split at h
  · cases h
  · split at h
    · cases h
    · exact (Except.error.inj h).symm

/-- C9 counterexample: the empty payload `{}` and the mint-only payload are
rejected as parameter-deserialization failures (the compiled request struct
requires `source`), not with `ApiError::InvalidInput` — refuting that any
non-empty subset of the three address filters is accepted and that the empty
payload yields `InvalidInput`. -/
theorem address_filter_counterexample :
    get_transactions_by_address apiEnvFix emptyAddressPayload =
      RpcOutcome.invalidParams ∧
    get_transactions_by_address apiEnvFix mintOnlyPayloadFix =
      RpcOutcome.invalidParams ∧
    (RpcOutcome.invalidParams : RpcOutcome AddressQuery) ≠
      RpcOutcome.apiError (ApiError.InvalidInput "") := by
  exact ⟨rfl, rfl, by decide⟩

/-- C9 (amended): `get_transactions_by_address` requires `source`: a payload
without it is rejected at parameter deserialization; no code path produces
`InvalidInput`; and every successful call filters on the validated source
pubkey, with `destination` and `mint` as optional additional filters (absent
input means absent filter). -/
theorem address_handler_requires_source (env : ApiEnv)
    (payload : GetTransactionsByAddressPayload) :
    (payload.source = none →
      get_transactions_by_address env payload = RpcOutcome.invalidParams) ∧
    (∀ msg, get_transactions_by_address env payload ≠
        RpcOutcome.apiError (ApiError.InvalidInput msg)) ∧
    (∀ q, get_transactions_by_address env payload = RpcOutcome.ok q →
        ∃ s, payload.source = some s ∧ env.parsePubkey s = some q.source ∧
          (payload.destination = none → q.destination = none) ∧
          (payload.mint = none → q.mint = none)) := by
  refine ⟨?_, ?_, ?_⟩
  · intro hs
    unfold get_transactions_by_address
    rw [hs]
  · intro msg h
    unfold get_transactions_by_address at h
    cases hs : payload.source with
    | none =>
        simp only [hs] at h
        exact RpcOutcome.noConfusion h
    | some s =>
        simp only [hs] at h
        cases hv : validate_pubkey env s with
        | error e =>
            simp only [hv] at h
            cases h
            exact ApiError.noConfusion (validate_pubkey_error_shape env s _ hv)
        | ok source =>
            simp only [hv] at h
            cases hd : validateOptPubkey env payload.destination with
            | error e =>
                simp only [hd] at h
                cases h
                rcases validateOptPubkey_error_shape env _ _ hd with ⟨s2, hs2⟩
                exact ApiError.noConfusion hs2
            | ok destination =>
                simp only [hd] at h
                cases hm : validateOptPubkey env payload.mint with
                | error e =>
                    simp only [hm] at h
                    cases h
                    rcases validateOptPubkey_error_shape env _ _ hm with ⟨s2, hs2⟩
                    exact ApiError.noConfusion hs2
                | ok mint =>
                    simp only [hm] at h
                    cases hvp : validate_pagination payload.limit payload.page
                        payload.before payload.after with
                    | error e =>
                        simp only [hvp] at h
                        cases h
                        exact validate_pagination_not_invalid_input _ _ _ _ msg hvp
                    | ok page_opt =>
                        simp only [hvp] at h
                        cases hcp : create_pagination page_opt with
                        | error e =>
                            simp only [hcp] at h
                            cases h
                            exact ApiError.noConfusion
                              (create_pagination_error_shape page_opt _ hcp)
                        | ok pagination =>
                            simp only [hcp] at h
                            exact RpcOutcome.noConfusion h
  · intro q h
    unfold get_transactions_by_address at h
    cases hs : payload.source with
    | none =>
        simp only [hs] at h
        exact RpcOutcome.noConfusion h
    | some s =>
        simp only [hs] at h
        refine ⟨s, rfl, ?_⟩
        cases hv : validate_pubkey env s with
        | error e => simp only [hv] at h; exact RpcOutcome.noConfusion h
        | ok source =>
            simp only [hv] at h
            cases hd : validateOptPubkey env payload.destination with
            | error e => simp only [hd] at h; exact RpcOutcome.noConfusion h
            | ok destination =>
                simp only [hd] at h
                cases hm : validateOptPubkey env payload.mint with
                | error e => simp only [hm] at h; exact RpcOutcome.noConfusion h
                | ok mint =>
                    simp only [hm] at h
                    cases hvp : validate_pagination payload.limit payload.page
                        payload.before payload.after with
                    | error e => simp only [hvp] at h; exact RpcOutcome.noConfusion h
                    | ok page_opt =>
                        simp only [hvp] at h
                        cases hcp : create_pagination page_opt with
                        | error e => simp only [hcp] at h; exact RpcOutcome.noConfusion h
                        | ok pagination =>
                            simp only [hcp] at h
                            cases h
                            refine ⟨?_, ?_, ?_⟩
                            · unfold validate_pubkey at hv
                              cases hp : env.parsePubkey s with
                              | some pk => rw [hp] at hv; cases hv; rfl
                              | none => rw [hp] at hv; cases hv
                            · intro hdn
                              rw [hdn] at hd
                              cases hd
                              rfl
                            · intro hmn
                              rw [hmn] at hm
                              cases hm
                              rfl

/-- Witness for C9 (amended) at concrete inputs: the empty payload is
rejected at deserialization, the source-only payload never yields
`InvalidInput`, and its successful call filters on the decoded source with no
destination or mint filter. -/
theorem address_handler_requires_source_witness :
    get_transactions_by_address apiEnvFix emptyAddressPayload =
      RpcOutcome.invalidParams ∧
    get_transactions_by_address apiEnvFix sourceOnlyPayloadFix ≠
      RpcOutcome.apiError (ApiError.InvalidInput "empty filter") ∧
    (∃ s, sourceOnlyPayloadFix.source = some s ∧
      apiEnvFix.parsePubkey s =
        some (AddressQuery.source
          { source := pkFix 1, destination := none, mint := none,
            query := { filters := [], offset := none, limit := 1000 },
            sort_direction := SqlOrder.desc,
            sort_by := some TokenTransfersColumn.blockTime }) ∧
      (sourceOnlyPayloadFix.destination = none →
        AddressQuery.destination
          { source := pkFix 1, destination := none, mint := none,
            query := { filters := [], offset := none, limit := 1000 },
            sort_direction := SqlOrder.desc,
            sort_by := some TokenTransfersColumn.blockTime } = none) ∧
      (sourceOnlyPayloadFix.mint = none →
        AddressQuery.mint
          { source := pkFix 1, destination := none, mint := none,
            query := { filters := [], offset := none, limit := 1000 },
            sort_direction := SqlOrder.desc,
            sort_by := some TokenTransfersColumn.blockTime } = none)) := by
  refine ⟨(address_handler_requires_source apiEnvFix emptyAddressPayload).1 rfl,
    (address_handler_requires_source apiEnvFix sourceOnlyPayloadFix).2.1 "empty filter",
    (address_handler_requires_source apiEnvFix sourceOnlyPayloadFix).2.2 _ (by decide)⟩

/-- C4 (code-bug evidence): block parsing is **not** total over the inputs
the claim names.  The push-variant `parse_block` panics (aborts, rather than
returning a per-block `ParserError`) when the proto `block_time` or
`block_height` field is missing, and the poll-variant
`parse_instruction_groups` panics on an inner token transfer that resolves
fewer than two accounts. -/
theorem parse_panics_on_missing_metadata_and_short_inner_transfer :
    GrpcParser.parse_block splEnvFix blockNoTimeFix =
      .panic "called Option::unwrap() on a None value" ∧
    GrpcParser.parse_block splEnvFix blockNoHeightFix =
      .panic "called Option::unwrap() on a None value" ∧
    PollerParser.parse_instruction_groups splEnvFix vtInnerShortFix metaInnerShortFix =
      .panic "index out of bounds: inner transfer accounts" := by
  exact ⟨rfl, rfl, by decide⟩

theorem sortBySlot_eq_of_perm (l m : List BlockInfo) (hperm : l.Perm m)
    (hsort : List.Pairwise slotLT m) : sortBySlot l = m := by
  have hp : (sortBySlot l).Perm m := (List.perm_insertionSort slotLE l).trans hperm
  have hs1 : List.Sorted slotLE (sortBySlot l) := List.sorted_insertionSort slotLE l
  have hne : List.Pairwise (fun a b : BlockInfo =>
      a.metadata.slot ≠ b.metadata.slot) m :=
    hsort.imp (fun h => Nat.ne_of_lt h)
  have hne2 : List.Pairwise (fun a b : BlockInfo =>
      a.metadata.slot ≠ b.metadata.slot) (sortBySlot l) :=
    (List.Perm.pairwise_iff (fun hxy heq => hxy heq.symm) hp).mpr hne
  have hs1lt : List.Sorted slotLT (sortBySlot l) :=
    (hs1.and hne2).imp (fun h => Nat.lt_of_le_of_ne h.1 h.2)
  exact List.eq_of_perm_of_sorted hp hs1lt hsort

theorem pollerBatch_eq (env : PollerFetchEnv)
    (hfetch : ∀ s b, env.fetch s = some b → b.metadata.slot = s)
    (hreorder : ∀ i l, (env.reorder i l).Perm l) (i cursor size : Nat) :
    pollerBatch env i cursor size =
      ((List.range size).map (cursor + ·)).filterMap env.fetch := by
  unfold pollerBatch
  apply sortBySlot_eq_of_perm
  · exact hreorder i _
  · have hslots : List.Pairwise (· < ·) ((List.range size).map (cursor + ·)) :=
      List.Pairwise.map _ (fun a b hab => by omega) (List.pairwise_lt_range size)
    refine List.pairwise_filterMap.mpr (hslots.imp ?_)
    intro a b hab blk hblk blk2 hblk2
    have h1 := hfetch a blk (Option.mem_def.mp hblk)
    have h2 := hfetch b blk2 (Option.mem_def.mp hblk2)
    simp only [slotLT, h1, h2]
    exact hab

theorem filterMap_fetch_map_slot (env : PollerFetchEnv)
    (hfetch : ∀ s b, env.fetch s = some b → b.metadata.slot = s) :
    ∀ slots : List Nat,
      (slots.filterMap env.fetch).map (fun b => b.metadata.slot) =
        slots.filter (fun s => (env.fetch s).isSome) := by
  intro slots
  induction slots with
  | nil => rfl
  | cons s rest ih =>
      cases hf : env.fetch s with
      | none => simp [List.filterMap_cons, hf, List.filter_cons, ih]
      | some b =>
          simp [List.filterMap_cons, hf, List.filter_cons, ih, hfetch s b hf]

theorem pollerRun_map_slot (env : PollerFetchEnv)
    (hfetch : ∀ s b, env.fetch s = some b → b.metadata.slot = s)
    (hreorder : ∀ i l, (env.reorder i l).Perm l) :
    ∀ (sizes : List Nat) (cursor i : Nat),
      (pollerRun env cursor i sizes).map (fun b => b.metadata.slot) =
        ((List.range sizes.sum).map (cursor + ·)).filter
          (fun s => (env.fetch s).isSome) := by
  intro sizes
  induction sizes with
  | nil => intro cursor i; rfl
  | cons k rest ih =>
      intro cursor i
      show ((pollerBatch env i cursor k ++
          pollerRun env (cursor + k) (i + 1) rest).map (fun b => b.metadata.slot)) = _
      rw [List.map_append, pollerBatch_eq env hfetch hreorder,
        filterMap_fetch_map_slot env hfetch, ih]
      rw [← List.filter_append]
      congr 1
      rw [List.sum_cons, List.range_add, List.map_append, List.map_map]
      congr 1
      apply List.map_congr_left
      intro x hx
      simp only [Function.comp_apply]
      omega

/-- C3: the poll streamer's emitted slots are exactly the slots of the
fetched windows whose fetch succeeded, in order — hence strictly increasing,
starting at `last_indexed_slot + 1` (or 0 when `last_indexed_slot = 0`,
raised to a nonzero `latest_slot`), with every skipped slot simply absent
while the cursor advances past it. -/
theorem poller_stream_strictly_increasing (env : PollerFetchEnv)
    (last_indexed_slot latest_slot : Nat) (sizes : List Nat)
    (hfetch : ∀ s b, env.fetch s = some b → b.metadata.slot = s)
    (hreorder : ∀ i l, (env.reorder i l).Perm l) :
    ((getPollerBlockStream env last_indexed_slot latest_slot sizes).map
        (fun b => b.metadata.slot) =
      ((List.range sizes.sum).map
          (pollerStartCursor last_indexed_slot latest_slot + ·)).filter
        (fun s => (env.fetch s).isSome)) ∧
    List.Pairwise (· < ·)
      ((getPollerBlockStream env last_indexed_slot latest_slot sizes).map
        (fun b => b.metadata.slot)) ∧
    (∀ s, env.fetch s = none →
      s ∉ (getPollerBlockStream env last_indexed_slot latest_slot sizes).map
        (fun b => b.metadata.slot)) ∧
    pollerStartCursor last_indexed_slot 0 =
      (if last_indexed_slot = 0 then 0 else last_indexed_slot + 1) := by
  have hmain := pollerRun_map_slot env hfetch hreorder sizes
    (pollerStartCursor last_indexed_slot latest_slot) 0
  have hmain2 : (getPollerBlockStream env last_indexed_slot latest_slot sizes).map
      (fun b => b.metadata.slot) =
      ((List.range sizes.sum).map
        (pollerStartCursor last_indexed_slot latest_slot + ·)).filter
        (fun s => (env.fetch s).isSome) := hmain
  refine ⟨hmain2, ?_, ?_, ?_⟩
  · rw [hmain2]
    refine List.Pairwise.filter _ ?_
    exact List.Pairwise.map _ (fun a b hab => by omega) (List.pairwise_lt_range _)
  · intro s hf hmem
    rw [hmain2] at hmem
    have := List.of_mem_filter hmem
    rw [hf] at this
    cases this
  · cases last_indexed_slot with
    | zero => simp [pollerStartCursor]
    | succ n => simp [pollerStartCursor]

/-- Witness for C3 at concrete inputs: cursor 1, two windows of two slots,
slot 3 skipped — the emitted slots are the non-skipped slots of 2..5 in
order, strictly increasing, with 3 absent. -/
theorem poller_stream_strictly_increasing_witness :
    ((getPollerBlockStream pollerEnvFix 1 0 [2, 2]).map
        (fun b => b.metadata.slot) =
      ((List.range ([2, 2].sum)).map (pollerStartCursor 1 0 + ·)).filter
        (fun s => (pollerEnvFix.fetch s).isSome)) ∧
    List.Pairwise (· < ·)
      ((getPollerBlockStream pollerEnvFix 1 0 [2, 2]).map
        (fun b => b.metadata.slot)) ∧
    3 ∉ (getPollerBlockStream pollerEnvFix 1 0 [2, 2]).map
      (fun b => b.metadata.slot) ∧
    pollerStartCursor 1 0 = (if (1 : Nat) = 0 then 0 else 1 + 1) := by
  have h := poller_stream_strictly_increasing pollerEnvFix 1 0 [2, 2]
    (by
      intro s b hf
      simp only [pollerEnvFix] at hf
      split at hf
      · cases hf
      · cases hf; rfl)
    (fun i l => List.Perm.refl l)
  exact ⟨h.1, h.2.1, h.2.2.1 3 (by decide), h.2.2.2⟩
